import Mathlib

/-!
# Verification of the mod-dungeon-master session/run orchestration engine

Shallow embedding of the session state machine, level-band calculation,
scaling engine, multi-phase boss resolution, and roguelike run layer of the
`mod-dungeon-master` module (`src/DMConfig.cpp`, `src/DungeonMasterMgr.h`,
`src/DMTypes.h`).  C++ `float` arithmetic is modelled with exact rationals,
machine integers with `Nat` (with explicit `% 256` where `uint8` truncation
matters), `std::map` with association lists whose insert replaces an existing
key and whose erase filters the key out, and world state (players present,
creatures near a position) with explicit environment records.
-/

namespace DungeonMaster

/-- Lifecycle of a single dungeon run (`SessionState` in `DMTypes.h`). -/
inductive SessionState where
  | None
  | Preparing
  | InProgress
  | BossPhase
  | Completed
  | Failed
  | Abandoned
  deriving DecidableEq, Repr

/-- A 3D position plus orientation (`Position`), with exact coordinates. -/
structure Position where
  x : ℚ
  y : ℚ
  z : ℚ
  o : ℚ
  deriving DecidableEq, Repr

/-- The all-zero position a `PendingPhaseCheck` starts with when the dead
creature could not be resolved. -/
def Position.zero : Position := ⟨0, 0, 0, 0⟩

/-- Tracks a single creature the module has summoned (`SpawnedCreature`). -/
structure SpawnedCreature where
  guid : ℕ
  entry : ℕ
  isElite : Bool
  isBoss : Bool
  isDead : Bool
  deriving DecidableEq, Repr

/-- Per-player bookkeeping within a session (`PlayerSessionData`). -/
structure PlayerSessionData where
  playerGuid : ℕ
  mobsKilled : ℕ
  bossesKilled : ℕ
  deaths : ℕ
  deriving DecidableEq, Repr

/-- A deferred boss-kill confirmation (`PendingPhaseCheck`). -/
structure PendingPhaseCheck where
  deathPos : Position
  deathTime : ℕ
  origEntry : ℕ
  resolved : Bool
  deriving DecidableEq, Repr

/-- The master state object for one dungeon run (`Session` in `DMTypes.h`),
restricted to the fields the verified operations read or write. -/
structure Session where
  sessionId : ℕ
  state : SessionState
  difficultyId : ℕ
  mapId : ℕ
  instanceId : ℕ
  scaleToParty : Bool
  effectiveLevel : ℕ
  levelBandMin : ℕ
  levelBandMax : ℕ
  startTime : ℕ
  endTime : ℕ
  timeLimit : ℕ
  players : List PlayerSessionData
  spawnedCreatures : List SpawnedCreature
  pendingPhaseChecks : List PendingPhaseCheck
  totalMobs : ℕ
  mobsKilled : ℕ
  totalBosses : ℕ
  bossesKilled : ℕ
  roguelikeRunId : ℕ
  deriving DecidableEq, Repr

/-- `Session::IsActive` from `DMTypes.h`. -/
def Session.IsActive (s : Session) : Bool :=
  s.state = SessionState.InProgress ||
  s.state = SessionState.BossPhase ||
  s.state = SessionState.Preparing

/-- One row of the difficulty table (`DifficultyTier`). -/
structure DifficultyTier where
  id : ℕ
  minLevel : ℕ
  maxLevel : ℕ
  healthMultiplier : ℚ
  damageMultiplier : ℚ
  deriving DecidableEq, Repr

/-- A roguelike run (`RoguelikeRun` in `RoguelikeTypes.h`), restricted to the
fields the verified operations read. -/
structure RoguelikeRun where
  runId : ℕ
  currentTier : ℕ
  currentSessionId : ℕ
  activeAffixes : List ℕ
  players : List ℕ
  deriving DecidableEq, Repr

/-- A static affix multiplier bundle (`AffixDef`). -/
structure AffixDef where
  id : ℕ
  trashHpMult : ℚ
  trashDmgMult : ℚ
  bossHpMult : ℚ
  bossDmgMult : ℚ
  eliteChanceMult : ℚ
  deriving DecidableEq, Repr

/-- The configuration values consumed by the verified operations
(`DMConfig` accessors). -/
structure DMConfigData where
  levelBand : ℕ
  soloMultiplier : ℚ
  perPlayerHealthMult : ℚ
  perPlayerDamageMult : ℚ
  eliteHealthMult : ℚ
  bossHealthMult : ℚ
  bossDamageMult : ℚ
  npcEntry : ℕ
  roguelikeHpScaling : ℚ
  roguelikeDmgScaling : ℚ
  roguelikeArmorScaling : ℚ
  roguelikeExpThreshold : ℕ
  roguelikeExpFactor : ℚ
  difficulties : List (ℕ × DifficultyTier)
  deriving Repr

/-! ## Association-list model of the `std::map` indices -/

/-- Key lookup in an association list (`std::map::find`). -/
def lookupAL (l : List (ℕ × α)) (k : ℕ) : Option α :=
  match l.find? (fun kv => kv.1 = k) with
  | some kv => some kv.2
  | none => none

/-- Insert-or-replace (`std::map::operator[] = v`). -/
def insertAL (k : ℕ) (v : α) : List (ℕ × α) → List (ℕ × α)
  | [] => [(k, v)]
  | kv :: rest => if kv.1 = k then (k, v) :: rest else kv :: insertAL k v rest

/-- Key removal (`std::map::erase(key)`); since `std::map` keys are unique,
removing every pair with the key is the faithful model. -/
def eraseAL (l : List (ℕ × α)) (k : ℕ) : List (ℕ × α) :=
  l.filter (fun kv => kv.1 ≠ k)

/-- The keys of an association list are pairwise distinct — the `std::map`
representation invariant. -/
def NodupKeys (l : List (ℕ × α)) : Prop :=
  (l.map Prod.fst).Nodup

/-! ## Level band calculation (`DungeonMasterMgr::CreateSession`,
`DMConfig.cpp` lines 989–1014) -/

/-- The level-band portion of `CreateSession`: given the difficulty tier, the
configured band width, the party's effective level and the scaling mode, it
returns `(EffectiveLevel, LevelBandMin, LevelBandMax)`.  `uint8` arithmetic is
mirrored with `% 256` on the one sum that can wrap, and the hard-coded level
cap is 83, as in the source. -/
def computeLevelBand (diff : DifficultyTier) (band : ℕ) (playerEff : ℕ)
    (scaleToParty : Bool) : ℕ × ℕ × ℕ :=
  if scaleToParty then
    let eff := playerEff
    let bmin0 : ℕ := if band < eff then eff - band else 1
    let bmax0 : ℕ := min ((eff + band) % 256) 83
    let bmin1 := max bmin0 diff.minLevel
    let bmax1 := min bmax0 diff.maxLevel
    if bmax1 < bmin1 then (eff, bmax1, bmax1) else (eff, bmin1, bmax1)
  else
    let eff := (diff.minLevel + diff.maxLevel) / 2
    if diff.maxLevel < diff.minLevel then (eff, diff.maxLevel, diff.maxLevel)
    else (eff, diff.minLevel, diff.maxLevel)

/-- Restatement of the spec's words for the `scaleToParty = true` band
(§4.2): the window `[eff − B, eff + B]` clamped to `[1, 83]`, intersected
with the tier's native range, collapsing to `min = max = max` when empty.
Computed over `ℤ` so that `eff − B` is not truncated. -/
def specLevelBandScaled (diff : DifficultyTier) (band : ℕ) (eff : ℕ) : ℕ × ℕ :=
  let lo : ℤ := max (max ((eff : ℤ) - band) 1) (diff.minLevel : ℤ)
  let hi : ℤ := min (min ((eff : ℤ) + band) 83) (diff.maxLevel : ℤ)
  if hi < lo then (hi.toNat, hi.toNat) else (lo.toNat, hi.toNat)

/-! ## Roguelike tier scaling (`RoguelikeMgr::GetTier*Multiplier`,
`DungeonMasterMgr.h` lines 846–941) -/

/-- The exponential part accumulated by the loop
`for (t = expThresh; t < tier; ++t) expPart += base * pow(factor, t - expThresh + 1)`. -/
def tierExpPart (base factor : ℚ) (thresh tier : ℕ) : ℚ :=
  (List.range (tier - thresh)).foldl (fun acc k => acc + base * factor ^ (k + 1)) 0

/-- `RoguelikeMgr::GetTierHealthMultiplier`. -/
def getTierHealthMultiplier (cfg : DMConfigData) (runs : List (ℕ × RoguelikeRun))
    (runId : ℕ) : ℚ :=
  match lookupAL runs runId with
  | none => 1
  | some run =>
    let tier := run.currentTier
    if tier ≤ 1 then 1
    else if tier ≤ cfg.roguelikeExpThreshold then
      1 + ((tier - 1 : ℕ) : ℚ) * cfg.roguelikeHpScaling
    else
      1 + ((cfg.roguelikeExpThreshold - 1 : ℕ) : ℚ) * cfg.roguelikeHpScaling
        + tierExpPart cfg.roguelikeHpScaling cfg.roguelikeExpFactor
            cfg.roguelikeExpThreshold tier

/-- `RoguelikeMgr::GetTierDamageMultiplier`. -/
def getTierDamageMultiplier (cfg : DMConfigData) (runs : List (ℕ × RoguelikeRun))
    (runId : ℕ) : ℚ :=
  match lookupAL runs runId with
  | none => 1
  | some run =>
    let tier := run.currentTier
    if tier ≤ 1 then 1
    else if tier ≤ cfg.roguelikeExpThreshold then
      1 + ((tier - 1 : ℕ) : ℚ) * cfg.roguelikeDmgScaling
    else
      1 + ((cfg.roguelikeExpThreshold - 1 : ℕ) : ℚ) * cfg.roguelikeDmgScaling
        + tierExpPart cfg.roguelikeDmgScaling cfg.roguelikeExpFactor
            cfg.roguelikeExpThreshold tier

/-- `RoguelikeMgr::GetTierArmorMultiplier` — armor scales linearly only. -/
def getTierArmorMultiplier (cfg : DMConfigData) (runs : List (ℕ × RoguelikeRun))
    (runId : ℕ) : ℚ :=
  match lookupAL runs runId with
  | none => 1
  | some run =>
    let tier := run.currentTier
    if tier ≤ 1 then 1
    else 1 + ((tier - 1 : ℕ) : ℚ) * cfg.roguelikeArmorScaling

/-- `RoguelikeMgr::GetAffixMultipliers`: the `(hp, dmg, eliteChance)` product
over the run's active affixes (identity when the run is unknown).  The inner
loop over `_affixDefs` with `break` is a first-match lookup. -/
def getAffixMultipliers (defs : List AffixDef) (runs : List (ℕ × RoguelikeRun))
    (runId : ℕ) (isBoss : Bool) : ℚ × ℚ × ℚ :=
  match lookupAL runs runId with
  | none => (1, 1, 1)
  | some run =>
    run.activeAffixes.foldl (fun acc afxId =>
      match defs.find? (fun d => d.id = afxId) with
      | none => acc
      | some d =>
        if isBoss then (acc.1 * d.bossHpMult, acc.2.1 * d.bossDmgMult, acc.2.2 * d.eliteChanceMult)
        else (acc.1 * d.trashHpMult, acc.2.1 * d.trashDmgMult, acc.2.2 * d.eliteChanceMult))
      (1, 1, 1)

/-! ## Session scaling multipliers (`DungeonMasterMgr::CalculateHealthMultiplier`
/ `CalculateDamageMultiplier`, `DMConfig.cpp` lines 3003–3039) -/

/-- `DungeonMasterMgr::CalculateHealthMultiplier`. -/
def calculateHealthMultiplier (cfg : DMConfigData) (runs : List (ℕ × RoguelikeRun))
    (s : Session) : ℚ :=
  match lookupAL cfg.difficulties s.difficultyId with
  | none => 1
  | some d =>
    let base := d.healthMultiplier
    let n := s.players.length
    let mult := if n ≤ 1 then base * cfg.soloMultiplier
      else base * (1 + ((n - 1 : ℕ) : ℚ) * cfg.perPlayerHealthMult)
    if s.roguelikeRunId ≠ 0 then mult * getTierHealthMultiplier cfg runs s.roguelikeRunId
    else mult

/-- `DungeonMasterMgr::CalculateDamageMultiplier`. -/
def calculateDamageMultiplier (cfg : DMConfigData) (runs : List (ℕ × RoguelikeRun))
    (s : Session) : ℚ :=
  match lookupAL cfg.difficulties s.difficultyId with
  | none => 1
  | some d =>
    let base := d.damageMultiplier
    let n := s.players.length
    let mult := if n ≤ 1 then base * cfg.soloMultiplier
      else base * (1 + ((n - 1 : ℕ) : ℚ) * cfg.perPlayerDamageMult)
    if s.roguelikeRunId ≠ 0 then mult * getTierDamageMultiplier cfg runs s.roguelikeRunId
    else mult

/-! ## Melee-damage scaling inside `PopulateDungeon`
(`DMConfig.cpp` lines 1501–1558) -/

/-- Base stats from `creature_classlevelstats` (`ClassLevelStatEntry`). -/
structure ClassLevelStatEntry where
  baseHP : ℕ
  baseDamage : ℚ
  baseArmor : ℕ
  attackPower : ℕ
  deriving DecidableEq, Repr

/-- The boss-specific damage multiplier computed at the top of
`PopulateDungeon`: party scaling only (solo multiplier or
`1 + (n−1)·PerPlayerDamageMult`), times the roguelike tier damage multiplier
when the session belongs to a run — deliberately *without* the difficulty
tier's `DamageMultiplier`. -/
def bossOnlyDmgMult (cfg : DMConfigData) (runs : List (ℕ × RoguelikeRun))
    (s : Session) : ℚ :=
  let n := s.players.length
  let m := if n ≤ 1 then cfg.soloMultiplier
    else 1 + ((n - 1 : ℕ) : ℚ) * cfg.perPlayerDamageMult
  if s.roguelikeRunId ≠ 0 then m * getTierDamageMultiplier cfg runs s.roguelikeRunId
  else m

/-- The melee min/max damage computed in `applyLevelAndStats`:
`(dmgBase + AP/14) · atkTime · effectiveDmgMult · extraDmgMult`, the max roll
inflating `dmgBase` by 1.15, clamped so `1 ≤ min ≤ max`. -/
def scaledMeleeDamage (stats : ClassLevelStatEntry) (baseAttackTimeMs : ℕ)
    (effDmgMult extraDmgMult : ℚ) : ℚ × ℚ :=
  let apBonus : ℚ := (stats.attackPower : ℚ) / 14
  let atkTime0 : ℚ := (baseAttackTimeMs : ℚ) / 1000
  let atkTime := if atkTime0 ≤ 0 then 2 else atkTime0
  let minDmg0 := (stats.baseDamage + apBonus) * atkTime * effDmgMult * extraDmgMult
  let maxDmg0 := (stats.baseDamage * (23/20) + apBonus) * atkTime * effDmgMult * extraDmgMult
  let minDmg := max 1 minDmg0
  (minDmg, max minDmg maxDmg0)

/-- Melee damage of a spawned boss: `applyLevelAndStats(b, …,
BossDamageMult · bossAffixDmgMult, true)` selects `bossOnlyDmgMult` as the
effective multiplier. -/
def bossMeleeDamage (cfg : DMConfigData) (runs : List (ℕ × RoguelikeRun))
    (s : Session) (stats : ClassLevelStatEntry) (baseAttackTimeMs : ℕ)
    (bossAffixDmgMult : ℚ) : ℚ × ℚ :=
  scaledMeleeDamage stats baseAttackTimeMs (bossOnlyDmgMult cfg runs s)
    (cfg.bossDamageMult * bossAffixDmgMult)

/-- Melee damage of a spawned trash creature: `applyLevelAndStats(c, …,
eliteDmgMult · affixDmgMult, false)` selects the full tier×party
`CalculateDamageMultiplier` as the effective multiplier
(`eliteDmgMult` is the hard-coded 1.5 for elites). -/
def trashMeleeDamage (cfg : DMConfigData) (runs : List (ℕ × RoguelikeRun))
    (s : Session) (stats : ClassLevelStatEntry) (baseAttackTimeMs : ℕ)
    (isElite : Bool) (affixDmgMult : ℚ) : ℚ × ℚ :=
  scaledMeleeDamage stats baseAttackTimeMs (calculateDamageMultiplier cfg runs s)
    ((if isElite then (3/2 : ℚ) else 1) * affixDmgMult)

/-! ## Creature death handling (`DungeonMasterMgr::HandleCreatureDeath`,
`DMConfig.cpp` lines 1875–1926) -/

/-- Observable side effects `HandleCreatureDeath` performs at death time. -/
inductive DeathEvent where
  | lootFilled (isBoss : Bool)
  | xpGranted (isBoss isElite : Bool)
  deriving DecidableEq, Repr

/-- The `for (auto& sc : session->SpawnedCreatures)` search of
`HandleCreatureDeath`: find the first tracked creature with the given guid.
Returns the list with that creature's dead flag set (when it was alive) and
`some (sc, wasAlreadyDead)` for the entry found. -/
def findMark (guid : ℕ) : List SpawnedCreature →
    List SpawnedCreature × Option (SpawnedCreature × Bool)
  | [] => ([], none)
  | sc :: rest =>
    if sc.guid = guid then
      if sc.isDead then (sc :: rest, some (sc, true))
      else ({ sc with isDead := true } :: rest, some (sc, false))
    else
      let r := findMark guid rest
      (sc :: r.1, r.2)

/-- `DungeonMasterMgr::HandleCreatureDeath(creature, session)`.  `guid`,
`pos` and `entry` are the dying creature's identity, position and template
entry.  Loot filling and kill-experience are returned as events.  A boss
death only enqueues a `PendingPhaseCheck`; a trash death increments the
session-wide and per-player mob counters.  A second death of the same
creature is a guarded no-op. -/
def handleCreatureDeath (now guid : ℕ) (pos : Position) (entry : ℕ)
    (s : Session) : Session × List DeathEvent :=
  if !s.IsActive then (s, [])
  else
    match (findMark guid s.spawnedCreatures).2 with
    | none => (s, [])
    | some (_, true) => (s, [])
    | some (sc, false) =>
      let scs := (findMark guid s.spawnedCreatures).1
      let events := [DeathEvent.lootFilled sc.isBoss, DeathEvent.xpGranted sc.isBoss sc.isElite]
      if sc.isBoss then
        ({ s with spawnedCreatures := scs,
                  pendingPhaseChecks := s.pendingPhaseChecks
                    ++ [{ deathPos := pos, deathTime := now, origEntry := entry,
                          resolved := false }] }, events)
      else
        ({ s with spawnedCreatures := scs,
                  mobsKilled := s.mobsKilled + 1,
                  players := s.players.map (fun pd =>
                    { pd with mobsKilled := pd.mobsKilled + 1 }) }, events)

/-! ## Multi-phase boss resolution (`DungeonMasterMgr::Update`,
`DMConfig.cpp` lines 3207–3327) -/

/-- A live creature of the host world as seen by the phase-check scan. -/
structure Creature where
  guid : ℕ
  entry : ℕ
  rank : ℕ
  isAlive : Bool
  isPet : Bool
  isGuardian : Bool
  pos : Position
  deriving DecidableEq, Repr

/-- Squared straight-line distance between two positions. -/
def distSq (a b : Position) : ℚ :=
  (a.x - b.x) ^ 2 + (a.y - b.y) ^ 2 + (a.z - b.z) ^ 2

/-- The world state visible to one `Update` tick's phase resolution:
the current time, whether the reference player's map is a dungeon, the
module NPC's template entry, and the creature list the grid scan returns. -/
structure ResolveEnv where
  nowTime : ℕ
  mapIsDungeon : Bool
  npcEntry : ℕ
  nearby : List Creature
  deriving DecidableEq, Repr

/-- The filter chain of the phase-creature scan: alive, not a pet or
guardian, not the module NPC, not already tracked, within 40 yards of the
boss death position (`dist > 40` rejected, compared on squares), and of
elite/rare-elite/boss rank (1, 2 or 4). -/
def phaseCandidate (npcEntry : ℕ) (tracked : List ℕ) (deathPos : Position)
    (nc : Creature) : Bool :=
  nc.isAlive && !nc.isPet && !nc.isGuardian &&
    decide (nc.entry ≠ npcEntry) && !(tracked.contains nc.guid) &&
    decide (distSq nc.pos deathPos ≤ 1600) &&
    (decide (nc.rank = 1) || decide (nc.rank = 2) || decide (nc.rank = 4))

/-- The scan around one pending check's death position.  It only runs on a
dungeon map and when a death position was recorded
(`ppc.DeathPos.GetPositionX() != 0.0f`); the promotion loop `break`s after
its first hit, so the first matching creature is returned. -/
def scanForPhaseCreature (env : ResolveEnv) (tracked : List ℕ)
    (deathPos : Position) : Option Creature :=
  if env.mapIsDungeon && decide (deathPos.x ≠ 0) then
    env.nearby.find? (phaseCandidate env.npcEntry tracked deathPos)
  else none

/-- The tracked-boss entry a promoted phase creature receives. -/
def promoteCreature (nc : Creature) : SpawnedCreature :=
  { guid := nc.guid, entry := nc.entry, isElite := true, isBoss := true,
    isDead := false }

/-- Confirming a boss kill: `++session.BossesKilled` and
`++pd.BossesKilled` for every player. -/
def confirmBossKill (s : Session) : Session :=
  { s with bossesKilled := s.bossesKilled + 1,
           players := s.players.map (fun pd =>
             { pd with bossesKilled := pd.bossesKilled + 1 }) }

/-- The completion test evaluated right after a confirmed kill:
`session.IsActive() && session.TotalBosses > 0 && BossesKilled >= TotalBosses`. -/
def completionReached (s : Session) : Bool :=
  s.IsActive && decide (0 < s.totalBosses) && decide (s.totalBosses ≤ s.bossesKilled)

/-- The `for (auto& ppc : session.PendingPhaseChecks)` resolution loop.
Already-resolved checks and checks younger than the 5-second grace window
are skipped.  A resolved check either promotes the first scan hit to a
tracked boss (extending `ourGuids` with the promoted guid) or confirms the
kill; a confirmed kill that reaches the total `break`s out of the loop with
the session marked `Completed`.  Returns the updated session (with a stale
`pendingPhaseChecks` field) and the updated check list. -/
def resolveChecks (env : ResolveEnv) (s : Session) (tracked : List ℕ) :
    List PendingPhaseCheck → Session × List PendingPhaseCheck
  | [] => (s, [])
  | ppc :: rest =>
    if ppc.resolved || decide (env.nowTime - ppc.deathTime < 5) then
      let r := resolveChecks env s tracked rest
      (r.1, ppc :: r.2)
    else
      let ppc' := { ppc with resolved := true }
      match scanForPhaseCreature env tracked ppc.deathPos with
      | some nc =>
        let s' := { s with spawnedCreatures := s.spawnedCreatures ++ [promoteCreature nc] }
        let r := resolveChecks env s' (tracked ++ [nc.guid]) rest
        (r.1, ppc' :: r.2)
      | none =>
        let s' := confirmBossKill s
        if completionReached s' then
          ({ s' with state := SessionState.Completed, endTime := env.nowTime },
            ppc' :: rest)
        else
          let r := resolveChecks env s' tracked rest
          (r.1, ppc' :: r.2)

/-- One session's phase-check handling inside `Update`: build `ourGuids`
from the tracked creature list, run the resolution loop, then prune the
resolved checks (`remove_if(… p.Resolved …)`). -/
def updatePhaseStep (env : ResolveEnv) (s : Session) : Session :=
  let tracked := s.spawnedCreatures.map (fun sc => sc.guid)
  let r := resolveChecks env s tracked s.pendingPhaseChecks
  { r.1 with pendingPhaseChecks := r.2.filter (fun p => !p.resolved) }

/-! ## Time-limit / abandonment transitions (`DungeonMasterMgr::Update`,
`DMConfig.cpp` lines 3373–3462) -/

/-- The per-tick world state the end-of-tick transition checks read:
the current time and which players are currently on the session's map. -/
structure TickEnv where
  now : ℕ
  presentOnMap : ℕ → Bool

/-- `anyone`: whether some party member is found and on the dungeon map. -/
def anyonePresent (env : TickEnv) (s : Session) : Bool :=
  s.players.any (fun pd => env.presentOnMap pd.playerGuid)

/-- The state-transition tail of the per-session `Update` body: the
time-limit check (`InProgress` and elapsed ≥ `TimeLimit` ⇒ `Failed`, with
`continue`) followed by the abandonment check (active, 15 seconds elapsed
since `StartTime`, and nobody on the dungeon map ⇒ `Abandoned`).  The
`Completed`/`Failed` branches in between only queue `EndSession` calls and
never change the state of an active session. -/
def sessionTickTransition (env : TickEnv) (s : Session) : Session :=
  if 0 < s.timeLimit && decide (s.state = SessionState.InProgress) &&
      decide (s.timeLimit ≤ env.now - s.startTime) then
    { s with state := SessionState.Failed }
  else if s.IsActive && decide (15 ≤ env.now - s.startTime) && !(anyonePresent env s) then
    { s with state := SessionState.Abandoned }
  else s

/-! ## Session/run registries (`DungeonMasterMgr` and `RoguelikeMgr` index
maps; `DMConfig.cpp` lines 1042–1082 and 2645–2752, `DungeonMasterMgr.h`
lines 420–428 and 744–767) -/

/-- The shared mutable maps of the two managers that the verified
operations touch. -/
structure MgrState where
  activeSessions : List (ℕ × Session)
  instanceToSession : List (ℕ × ℕ)
  playerToSession : List (ℕ × ℕ)
  activeRuns : List (ℕ × RoguelikeRun)
  sessionToRun : List (ℕ × ℕ)
  playerToRun : List (ℕ × ℕ)

/-- The player-index registration at the end of `CreateSession`:
`for (pd : s.Players) _playerToSession[pd.PlayerGuid] = s.SessionId`. -/
def registerSessionPlayers (sid : ℕ) (players : List PlayerSessionData)
    (idx : List (ℕ × ℕ)) : List (ℕ × ℕ) :=
  players.foldl (fun acc pd => insertAL pd.playerGuid sid acc) idx

/-- The run registration block of `RoguelikeMgr::StartRun`:
`for (pd : run.Players) _playerToRun[pd.PlayerGuid] = run.RunId`. -/
def registerRunPlayers (runId : ℕ) (players : List ℕ)
    (idx : List (ℕ × ℕ)) : List (ℕ × ℕ) :=
  players.foldl (fun acc g => insertAL g runId acc) idx

/-- `DungeonMasterMgr::GetSession`. -/
def getSession (m : MgrState) (id : ℕ) : Option Session :=
  lookupAL m.activeSessions id

/-- `DungeonMasterMgr::GetSessionByInstance` — the instance index gives a
session id, which must still resolve in the active-session map. -/
def getSessionByInstance (m : MgrState) (instId : ℕ) : Option Session :=
  match lookupAL m.instanceToSession instId with
  | none => none
  | some sid => lookupAL m.activeSessions sid

/-- `DungeonMasterMgr::GetSessionByPlayer`. -/
def getSessionByPlayer (m : MgrState) (guid : ℕ) : Option Session :=
  match lookupAL m.playerToSession guid with
  | none => none
  | some sid => lookupAL m.activeSessions sid

/-- The index-erasure common to both ends of a session: drop the instance
mapping (when an instance was registered), every player mapping, and the
session itself. -/
def eraseSessionMappings (m : MgrState) (s : Session) (id : ℕ) : MgrState :=
  { m with
    instanceToSession :=
      if s.instanceId ≠ 0 then eraseAL m.instanceToSession s.instanceId
      else m.instanceToSession,
    playerToSession :=
      s.players.foldl (fun acc pd => eraseAL acc pd.playerGuid) m.playerToSession,
    activeSessions := eraseAL m.activeSessions id }

/-- `DungeonMasterMgr::CleanupRoguelikeSession`: persist stats, then erase
the mappings; a no-op when the session is unknown. -/
def cleanupRoguelikeSession (m : MgrState) (sessionId : ℕ) : MgrState :=
  match lookupAL m.activeSessions sessionId with
  | none => m
  | some s => eraseSessionMappings m s sessionId

/-- The index mutations of `RoguelikeMgr::EndRun` (rewards, teleports and
cooldowns have no effect on the maps): clean up the run's current session
when one is open, then erase the run from its three indices. -/
def endRunIndexCleanup (m : MgrState) (runId : ℕ) : MgrState :=
  match lookupAL m.activeRuns runId with
  | none => m
  | some run =>
    let m1 := if run.currentSessionId ≠ 0 then
        cleanupRoguelikeSession m run.currentSessionId
      else m
    { m1 with
      sessionToRun := eraseAL m1.sessionToRun run.currentSessionId,
      playerToRun := run.players.foldl (fun acc g => eraseAL acc g) m1.playerToRun,
      activeRuns := eraseAL m1.activeRuns runId }

/-- `DungeonMasterMgr::EndSession(sessionId, success)` restricted to its
index mutations.  A roguelike-tagged session is erased under the lock and
the rest is delegated to `RoguelikeMgr::EndRun`; a normal session is erased
after rewards/teleport/cooldowns. -/
def endSession (m : MgrState) (sessionId : ℕ) : MgrState :=
  match lookupAL m.activeSessions sessionId with
  | none => m
  | some s =>
    if s.roguelikeRunId ≠ 0 then
      endRunIndexCleanup (eraseSessionMappings m s sessionId) s.roguelikeRunId
    else
      eraseSessionMappings m s sessionId

/-- Bumping a player's confirmed boss-kill counter by `n`; `confirmBossKill`
applies `bumpBossKills 1` to every player. -/
def bumpBossKills (n : ℕ) (pd : PlayerSessionData) : PlayerSessionData :=
  { pd with bossesKilled := pd.bossesKilled + n }

/-! ## Helper lemmas on the association-list maps -/

theorem lookupAL_cons (kv : ℕ × α) (l : List (ℕ × α)) (j : ℕ) :
    lookupAL (kv :: l) j = if kv.1 = j then some kv.2 else lookupAL l j := by
  by_cases h : kv.1 = j
  · unfold lookupAL
    rw [List.find?_cons_of_pos _ (by simpa using h), if_pos h]
  · unfold lookupAL
    rw [List.find?_cons_of_neg _ (by simpa using h), if_neg h]

theorem eraseAL_cons (kv : ℕ × α) (l : List (ℕ × α)) (k : ℕ) :
    eraseAL (kv :: l) k = if kv.1 = k then eraseAL l k else kv :: eraseAL l k := by
  by_cases h : kv.1 = k <;> simp [eraseAL, List.filter_cons, h]

theorem lookupAL_eraseAL (l : List (ℕ × α)) (k j : ℕ) :
    lookupAL (eraseAL l k) j = if j = k then none else lookupAL l j := by
  induction l with
  | nil => by_cases hj : j = k <;> simp [eraseAL, lookupAL, hj]
  | cons kv rest ih =>
    rw [eraseAL_cons]
    by_cases hk : kv.1 = k
    · rw [if_pos hk, ih, lookupAL_cons]
      by_cases hj : j = k
      · simp [hj]
      · have hne : kv.1 ≠ j := by rw [hk]; exact fun hh => hj hh.symm
        simp [hj, hne]
    · rw [if_neg hk, lookupAL_cons, lookupAL_cons, ih]
      by_cases hj : kv.1 = j
      · have hjk : j ≠ k := fun hh => hk (hj.trans hh)
        simp [hj, hjk]
      · simp [hj]

theorem lookupAL_eraseAL_self (l : List (ℕ × α)) (k : ℕ) :
    lookupAL (eraseAL l k) k = none := by
  simp [lookupAL_eraseAL]

theorem lookupAL_eraseAL_of_none (l : List (ℕ × α)) (k j : ℕ)
    (h : lookupAL l j = none) : lookupAL (eraseAL l k) j = none := by
  rw [lookupAL_eraseAL]
  by_cases hj : j = k <;> simp [hj, h]

theorem lookupAL_foldl_eraseAL_of_none {β : Type _} (f : β → ℕ) (xs : List β) :
    ∀ (l : List (ℕ × α)) (j : ℕ), lookupAL l j = none →
      lookupAL (xs.foldl (fun acc x => eraseAL acc (f x)) l) j = none := by
  induction xs with
  | nil => intro l j h; simpa using h
  | cons x rest ih =>
    intro l j h
    exact ih _ _ (lookupAL_eraseAL_of_none _ _ _ h)

theorem lookupAL_foldl_eraseAL_mem {β : Type _} (f : β → ℕ) (xs : List β) :
    ∀ (l : List (ℕ × α)) (x : β), x ∈ xs →
      lookupAL (xs.foldl (fun acc y => eraseAL acc (f y)) l) (f x) = none := by
  induction xs with
  | nil => intro l x hx; cases hx
  | cons y rest ih =>
    intro l x hx
    rcases List.mem_cons.mp hx with rfl | hmem
    · exact lookupAL_foldl_eraseAL_of_none f rest _ _ (lookupAL_eraseAL_self _ _)
    · exact ih _ x hmem

theorem mem_keys_insertAL (l : List (ℕ × α)) (k : ℕ) (v : α) (a : ℕ)
    (ha : a ∈ (insertAL k v l).map Prod.fst) :
    a = k ∨ a ∈ l.map Prod.fst := by
  induction l with
  | nil =>
    rw [insertAL, List.map_cons] at ha
    rcases List.mem_cons.mp ha with h | h
    · exact Or.inl h
    · simp at h
  | cons kv rest ih =>
    by_cases hk : kv.1 = k
    · rw [insertAL, if_pos hk, List.map_cons] at ha
      rcases List.mem_cons.mp ha with h | h
      · exact Or.inl h
      · right
        rw [List.map_cons]
        exact List.mem_cons.mpr (Or.inr h)
    · rw [insertAL, if_neg hk, List.map_cons] at ha
      rcases List.mem_cons.mp ha with h | h
      · right
        rw [List.map_cons]
        exact List.mem_cons.mpr (Or.inl h)
      · rcases ih h with h1 | h1
        · exact Or.inl h1
        · right
          rw [List.map_cons]
          exact List.mem_cons.mpr (Or.inr h1)

theorem nodupKeys_insertAL (l : List (ℕ × α)) (k : ℕ) (v : α)
    (h : NodupKeys l) : NodupKeys (insertAL k v l) := by
  induction l with
  | nil => simp [NodupKeys, insertAL]
  | cons kv rest ih =>
    rw [NodupKeys, List.map_cons, List.nodup_cons] at h
    by_cases hk : kv.1 = k
    · rw [insertAL, if_pos hk, NodupKeys, List.map_cons, List.nodup_cons]
      exact ⟨by rw [← hk]; exact h.1, h.2⟩
    · rw [insertAL, if_neg hk, NodupKeys, List.map_cons, List.nodup_cons]
      refine ⟨fun hmem => ?_, ih h.2⟩
      rcases mem_keys_insertAL rest k v kv.1 hmem with h1 | h1
      · exact hk h1
      · exact h.1 h1

theorem nodupKeys_eraseAL (l : List (ℕ × α)) (k : ℕ)
    (h : NodupKeys l) : NodupKeys (eraseAL l k) := by
  have hsub : (eraseAL l k).map Prod.fst |>.Sublist (l.map Prod.fst) :=
    (List.filter_sublist l).map Prod.fst
  exact hsub.nodup h

theorem nodupKeys_registerSessionPlayers (sid : ℕ)
    (players : List PlayerSessionData) (idx : List (ℕ × ℕ))
    (h : NodupKeys idx) : NodupKeys (registerSessionPlayers sid players idx) := by
  induction players generalizing idx with
  | nil => simpa [registerSessionPlayers] using h
  | cons pd rest ih =>
    simpa [registerSessionPlayers] using
      ih (insertAL pd.playerGuid sid idx) (nodupKeys_insertAL _ _ _ h)

theorem nodupKeys_registerRunPlayers (runId : ℕ)
    (players : List ℕ) (idx : List (ℕ × ℕ))
    (h : NodupKeys idx) : NodupKeys (registerRunPlayers runId players idx) := by
  induction players generalizing idx with
  | nil => simpa [registerRunPlayers] using h
  | cons g rest ih =>
    simpa [registerRunPlayers] using
      ih (insertAL g runId idx) (nodupKeys_insertAL _ _ _ h)

/-! ## C4 — level band construction -/

set_option maxHeartbeats 2000000 in
/-- **C4.** For every session returned by `CreateSession`,
`LevelBandMin ≤ LevelBandMax` holds immediately after construction (first
conjunct, for all inputs).  With `scaleToParty = true` the band is the
player-level ± band window clamped to `[1, 83]` and intersected with the
tier's native range, collapsing to `min = max = max` when the intersection
is empty (the `specLevelBandScaled` refinement); with `scaleToParty = false`
the effective level is the integer midpoint of the tier's range and the band
is the tier's native range exactly. -/
theorem levelBand_post_construction (d : DifficultyTier) (band eff : ℕ)
    (hwrap : eff + band ≤ 255) (htier : d.minLevel ≤ d.maxLevel) :
    (∀ (d2 : DifficultyTier) (b2 e2 : ℕ) (sc : Bool),
       (computeLevelBand d2 b2 e2 sc).2.1 ≤ (computeLevelBand d2 b2 e2 sc).2.2) ∧
    (computeLevelBand d band eff true).2 = specLevelBandScaled d band eff ∧
    computeLevelBand d band eff false =
      ((d.minLevel + d.maxLevel) / 2, d.minLevel, d.maxLevel) := by
  refine ⟨?_, ?_, ?_⟩
  · intro d2 b2 e2 sc
    cases sc <;> simp only [computeLevelBand] <;> split_ifs <;> simp <;> omega
  · have hb : computeLevelBand d band eff true =
        (let bmin0 : ℕ := if band < eff then eff - band else 1
         let bmax0 : ℕ := min ((eff + band) % 256) 83
         let bmin1 := max bmin0 d.minLevel
         let bmax1 := min bmax0 d.maxLevel
         if bmax1 < bmin1 then (eff, bmax1, bmax1) else (eff, bmin1, bmax1)) := rfl
    rw [hb]
    simp only [specLevelBandScaled]
    split_ifs <;> refine Prod.ext ?_ ?_ <;> dsimp only <;> omega
  · have hne : ¬ (d.maxLevel < d.minLevel) := by omega
    simp only [computeLevelBand, Bool.false_eq_true, if_false]
    rw [if_neg hne]

/-- Witness for C4: a level-25 solo player on a 40–50 tier with band 3 —
the window `[22, 28]` misses the tier range entirely and the band collapses
to the single clamped upper bound `(28, 28)`; a 40–50 tier without party
scaling keeps its native range. -/
theorem levelBand_post_construction_witness :
    (25 + 3 ≤ 255 ∧ (40 : ℕ) ≤ 50) ∧
    (computeLevelBand ⟨1, 40, 50, 1, 1⟩ 3 25 true).2 =
      specLevelBandScaled ⟨1, 40, 50, 1, 1⟩ 3 25 ∧
    (computeLevelBand ⟨1, 40, 50, 1, 1⟩ 3 25 true).2 = (28, 28) ∧
    computeLevelBand ⟨1, 40, 50, 1, 1⟩ 3 25 false = (45, 40, 50) := by
  have h := levelBand_post_construction ⟨1, 40, 50, 1, 1⟩ 3 25
    (by norm_num) (by norm_num)
  exact ⟨⟨by norm_num, by norm_num⟩, h.2.1, by decide, h.2.2⟩

/-! ## C5 — roguelike tier scaling formula -/

/-- **C5.** The tier health/damage multiplier is `1 + (tier−1)·base` for
every tier up to the exponential threshold; the first tier past the
threshold adds exactly `base·expFactor¹`; armor scales linearly
(`1 + (tier−1)·armorBase`) at every tier with no cap; and with
`base = 0.10`, `expThreshold = 5`, `expFactor = 1.15` the tier-5 multiplier
is `1.40 = 7/5` and the tier-6 multiplier is `1.515 = 303/200`. -/
theorem tier_multiplier_formula (cfg : DMConfigData)
    (runs : List (ℕ × RoguelikeRun)) (runId : ℕ) (run : RoguelikeRun)
    (hfind : lookupAL runs runId = some run) :
    (run.currentTier ≤ cfg.roguelikeExpThreshold →
       getTierHealthMultiplier cfg runs runId =
         1 + ((run.currentTier - 1 : ℕ) : ℚ) * cfg.roguelikeHpScaling ∧
       getTierDamageMultiplier cfg runs runId =
         1 + ((run.currentTier - 1 : ℕ) : ℚ) * cfg.roguelikeDmgScaling) ∧
    (run.currentTier = cfg.roguelikeExpThreshold + 1 →
     1 ≤ cfg.roguelikeExpThreshold →
       getTierHealthMultiplier cfg runs runId =
         1 + ((cfg.roguelikeExpThreshold - 1 : ℕ) : ℚ) * cfg.roguelikeHpScaling +
           cfg.roguelikeHpScaling * cfg.roguelikeExpFactor ∧
       getTierDamageMultiplier cfg runs runId =
         1 + ((cfg.roguelikeExpThreshold - 1 : ℕ) : ℚ) * cfg.roguelikeDmgScaling +
           cfg.roguelikeDmgScaling * cfg.roguelikeExpFactor) ∧
    (getTierArmorMultiplier cfg runs runId =
       1 + ((run.currentTier - 1 : ℕ) : ℚ) * cfg.roguelikeArmorScaling) ∧
    (cfg.roguelikeHpScaling = 1/10 → cfg.roguelikeExpThreshold = 5 →
     cfg.roguelikeExpFactor = 23/20 →
       (run.currentTier = 5 → getTierHealthMultiplier cfg runs runId = 7/5) ∧
       (run.currentTier = 6 → getTierHealthMultiplier cfg runs runId = 303/200)) := by
  refine ⟨?_, ?_, ?_, ?_⟩
  · intro hle
    constructor
    · simp only [getTierHealthMultiplier, hfind]
      by_cases h1 : run.currentTier ≤ 1
      · have h0 : run.currentTier - 1 = 0 := by omega
        rw [if_pos h1, h0]
        simp
      · rw [if_neg h1, if_pos hle]
    · simp only [getTierDamageMultiplier, hfind]
      by_cases h1 : run.currentTier ≤ 1
      · have h0 : run.currentTier - 1 = 0 := by omega
        rw [if_pos h1, h0]
        simp
      · rw [if_neg h1, if_pos hle]
  · intro heq hth
    have h1 : ¬ (run.currentTier ≤ 1) := by omega
    have h2 : ¬ (run.currentTier ≤ cfg.roguelikeExpThreshold) := by omega
    have hr : run.currentTier - cfg.roguelikeExpThreshold = 1 := by omega
    have hrange : List.range 1 = [0] := rfl
    constructor
    · simp only [getTierHealthMultiplier, hfind]
      rw [if_neg h1, if_neg h2, tierExpPart, hr, hrange]
      simp
    · simp only [getTierDamageMultiplier, hfind]
      rw [if_neg h1, if_neg h2, tierExpPart, hr, hrange]
      simp
  · simp only [getTierArmorMultiplier, hfind]
    by_cases h1 : run.currentTier ≤ 1
    · have h0 : run.currentTier - 1 = 0 := by omega
      rw [if_pos h1, h0]
      simp
    · rw [if_neg h1]
  · intro e1 e2 e3
    constructor
    · intro h5
      simp only [getTierHealthMultiplier, hfind, h5, e1, e2, e3]
      norm_num
    · intro h6
      simp only [getTierHealthMultiplier, hfind, h6, e1, e2, e3]
      rw [if_neg (by norm_num), if_neg (by norm_num), tierExpPart]
      have hrange : List.range (6 - 5) = [0] := rfl
      rw [hrange]
      norm_num

/-- Witness for C5: concretely, with `base = 1/10`, threshold `5`, factor
`23/20`, a tier-6 run yields the health multiplier `303/200` and armor
multiplier `1 + 5·(1/20)`. -/
theorem tier_multiplier_formula_witness :
    lookupAL [(9, (⟨9, 6, 0, [], []⟩ : RoguelikeRun))] 9 =
      some (⟨9, 6, 0, [], []⟩ : RoguelikeRun) ∧
    getTierHealthMultiplier
      ⟨3, 1/2, 1/2, 1/10, 2, 5, 3, 100, 1/10, 1/10, 1/20, 5, 23/20, []⟩
      [(9, (⟨9, 6, 0, [], []⟩ : RoguelikeRun))] 9 = 303/200 ∧
    getTierArmorMultiplier
      ⟨3, 1/2, 1/2, 1/10, 2, 5, 3, 100, 1/10, 1/10, 1/20, 5, 23/20, []⟩
      [(9, (⟨9, 6, 0, [], []⟩ : RoguelikeRun))] 9 = 1 + (5 : ℚ) * (1/20) := by
  have h := tier_multiplier_formula
    ⟨3, 1/2, 1/2, 1/10, 2, 5, 3, 100, 1/10, 1/10, 1/20, 5, 23/20, []⟩
    [(9, (⟨9, 6, 0, [], []⟩ : RoguelikeRun))] 9 ⟨9, 6, 0, [], []⟩ rfl
  refine ⟨rfl, (h.2.2.2 rfl rfl rfl).2 rfl, ?_⟩
  rw [h.2.2.1]
  norm_num

/-! ## C7 — party-size scaling of the session multipliers -/

/-- **C7.** The session health/damage multiplier is the tier's base
multiplier times the solo multiplier for party size ≤ 1 and times
`1 + (n−1)·perPlayer` for n > 1, before any roguelike tier factor
(`roguelikeRunId = 0` here); concretely `1.0 × 0.5 = 0.5` for the solo
health scenario and `1.0 × (1 + 3·0.10) = 1.30` for the 4-player damage
scenario. -/
theorem session_multiplier_party_size (cfg : DMConfigData)
    (runs : List (ℕ × RoguelikeRun)) (s : Session) (d : DifficultyTier)
    (hd : lookupAL cfg.difficulties s.difficultyId = some d)
    (hrog : s.roguelikeRunId = 0) :
    (s.players.length ≤ 1 →
       calculateHealthMultiplier cfg runs s = d.healthMultiplier * cfg.soloMultiplier ∧
       calculateDamageMultiplier cfg runs s = d.damageMultiplier * cfg.soloMultiplier) ∧
    (1 < s.players.length →
       calculateHealthMultiplier cfg runs s =
         d.healthMultiplier * (1 + ((s.players.length - 1 : ℕ) : ℚ) * cfg.perPlayerHealthMult) ∧
       calculateDamageMultiplier cfg runs s =
         d.damageMultiplier * (1 + ((s.players.length - 1 : ℕ) : ℚ) * cfg.perPlayerDamageMult)) ∧
    (s.players.length = 1 → d.healthMultiplier = 1 → cfg.soloMultiplier = 1/2 →
       calculateHealthMultiplier cfg runs s = 1/2) ∧
    (s.players.length = 4 → d.damageMultiplier = 1 → cfg.perPlayerDamageMult = 1/10 →
       calculateDamageMultiplier cfg runs s = 13/10) := by
  refine ⟨?_, ?_, ?_, ?_⟩
  · intro hn
    constructor
    · simp only [calculateHealthMultiplier, hd, hrog]
      rw [if_pos hn]
      simp
    · simp only [calculateDamageMultiplier, hd, hrog]
      rw [if_pos hn]
      simp
  · intro hn
    have hn1 : ¬ (s.players.length ≤ 1) := by omega
    constructor
    · simp only [calculateHealthMultiplier, hd, hrog]
      rw [if_neg hn1]
      simp
    · simp only [calculateDamageMultiplier, hd, hrog]
      rw [if_neg hn1]
      simp
  · intro hn hh hs
    simp only [calculateHealthMultiplier, hd, hrog, hn, hh, hs]
    norm_num
  · intro hn hh hs
    simp only [calculateDamageMultiplier, hd, hrog, hn, hh, hs]
    norm_num

/-- Witness for C7: a 1-difficulty config with `HealthMultiplier = 1`,
`SoloMultiplier = 1/2`, `PerPlayerDamageMult = 1/10`, evaluated on concrete
solo and 4-player sessions. -/
theorem session_multiplier_party_size_witness :
    lookupAL [(1, (⟨1, 1, 80, 1, 1⟩ : DifficultyTier))] 1 =
      some (⟨1, 1, 80, 1, 1⟩ : DifficultyTier) ∧
    calculateHealthMultiplier
      ⟨3, 1/2, 1/2, 1/10, 2, 5, 3, 100, 1/10, 1/10, 1/20, 5, 23/20,
        [(1, ⟨1, 1, 80, 1, 1⟩)]⟩ []
      ⟨1, SessionState.InProgress, 1, 36, 0, true, 25, 22, 28, 0, 0, 0,
        [⟨10, 0, 0, 0⟩], [], [], 0, 0, 0, 0, 0⟩ = 1/2 ∧
    calculateDamageMultiplier
      ⟨3, 1/2, 1/2, 1/10, 2, 5, 3, 100, 1/10, 1/10, 1/20, 5, 23/20,
        [(1, ⟨1, 1, 80, 1, 1⟩)]⟩ []
      ⟨1, SessionState.InProgress, 1, 36, 0, true, 25, 22, 28, 0, 0, 0,
        [⟨10, 0, 0, 0⟩, ⟨11, 0, 0, 0⟩, ⟨12, 0, 0, 0⟩, ⟨13, 0, 0, 0⟩],
        [], [], 0, 0, 0, 0, 0⟩ = 13/10 := by
  have h1 := session_multiplier_party_size
    ⟨3, 1/2, 1/2, 1/10, 2, 5, 3, 100, 1/10, 1/10, 1/20, 5, 23/20,
      [(1, ⟨1, 1, 80, 1, 1⟩)]⟩ []
    ⟨1, SessionState.InProgress, 1, 36, 0, true, 25, 22, 28, 0, 0, 0,
      [⟨10, 0, 0, 0⟩], [], [], 0, 0, 0, 0, 0⟩ ⟨1, 1, 80, 1, 1⟩ rfl rfl
  have h2 := session_multiplier_party_size
    ⟨3, 1/2, 1/2, 1/10, 2, 5, 3, 100, 1/10, 1/10, 1/20, 5, 23/20,
      [(1, ⟨1, 1, 80, 1, 1⟩)]⟩ []
    ⟨1, SessionState.InProgress, 1, 36, 0, true, 25, 22, 28, 0, 0, 0,
      [⟨10, 0, 0, 0⟩, ⟨11, 0, 0, 0⟩, ⟨12, 0, 0, 0⟩, ⟨13, 0, 0, 0⟩],
      [], [], 0, 0, 0, 0, 0⟩ ⟨1, 1, 80, 1, 1⟩ rfl rfl
  exact ⟨rfl, h1.2.2.1 rfl rfl rfl, h2.2.2.2 rfl rfl rfl⟩

/-! ## C10 — sessions not linked to a live run are never scaled -/

/-- **C10.** For a run id with no entry in the active-run map, the three
tier-scaling queries return exactly 1 and the affix multipliers are the
identity `(1, 1, 1)`; for an active run with `CurrentTier ≤ 1` the three
tier-scaling queries also return exactly 1. -/
theorem unlinked_run_identity_scaling (cfg : DMConfigData) (defs : List AffixDef)
    (runs : List (ℕ × RoguelikeRun)) (runId : ℕ) (run : RoguelikeRun)
    (isBoss : Bool) :
    (lookupAL runs runId = none →
       getTierHealthMultiplier cfg runs runId = 1 ∧
       getTierDamageMultiplier cfg runs runId = 1 ∧
       getTierArmorMultiplier cfg runs runId = 1 ∧
       getAffixMultipliers defs runs runId isBoss = (1, 1, 1)) ∧
    (lookupAL runs runId = some run → run.currentTier ≤ 1 →
       getTierHealthMultiplier cfg runs runId = 1 ∧
       getTierDamageMultiplier cfg runs runId = 1 ∧
       getTierArmorMultiplier cfg runs runId = 1) := by
  constructor
  · intro hnone
    refine ⟨?_, ?_, ?_, ?_⟩ <;>
      simp [getTierHealthMultiplier, getTierDamageMultiplier,
        getTierArmorMultiplier, getAffixMultipliers, hnone]
  · intro hsome htier
    refine ⟨?_, ?_, ?_⟩ <;>
      simp [getTierHealthMultiplier, getTierDamageMultiplier,
        getTierArmorMultiplier, hsome, htier]

/-- Witness for C10: run id 5 is absent from a one-run map, and the run
registered under id 9 sits at tier 1 — every multiplier evaluates to 1. -/
theorem unlinked_run_identity_scaling_witness :
    lookupAL [(9, (⟨9, 1, 0, [], []⟩ : RoguelikeRun))] 5 = none ∧
    getTierHealthMultiplier
      ⟨3, 1/2, 1/2, 1/10, 2, 5, 3, 100, 1/10, 1/10, 1/20, 5, 23/20, []⟩
      [(9, (⟨9, 1, 0, [], []⟩ : RoguelikeRun))] 5 = 1 ∧
    getAffixMultipliers [] [(9, (⟨9, 1, 0, [], []⟩ : RoguelikeRun))] 5 true = (1, 1, 1) ∧
    getTierHealthMultiplier
      ⟨3, 1/2, 1/2, 1/10, 2, 5, 3, 100, 1/10, 1/10, 1/20, 5, 23/20, []⟩
      [(9, (⟨9, 1, 0, [], []⟩ : RoguelikeRun))] 9 = 1 := by
  have h5 := unlinked_run_identity_scaling
    ⟨3, 1/2, 1/2, 1/10, 2, 5, 3, 100, 1/10, 1/10, 1/20, 5, 23/20, []⟩ []
    [(9, (⟨9, 1, 0, [], []⟩ : RoguelikeRun))] 5 ⟨9, 1, 0, [], []⟩ true
  have h9 := unlinked_run_identity_scaling
    ⟨3, 1/2, 1/2, 1/10, 2, 5, 3, 100, 1/10, 1/10, 1/20, 5, 23/20, []⟩ []
    [(9, (⟨9, 1, 0, [], []⟩ : RoguelikeRun))] 9 ⟨9, 1, 0, [], []⟩ true
  exact ⟨rfl, (h5.1 rfl).1, (h5.1 rfl).2.2.2, (h9.2 rfl (by norm_num)).1⟩

/-! ## C6 — boss damage omits the difficulty tier's damage multiplier -/

/-- **C6.** The boss melee-damage chain uses only the party-size factor
(solo multiplier for party size ≤ 1, else `1 + (n−1)·perPlayerDamage`)
times the roguelike tier damage multiplier when applicable, times the
dedicated boss-damage and affix multipliers — the difficulty tier's
`DamageMultiplier` never appears (first and third conjuncts); a non-boss
creature's chain is exactly the tier's `DamageMultiplier` times that same
party×roguelike factor (second and fourth conjuncts). -/
theorem boss_damage_omits_tier_multiplier (cfg : DMConfigData)
    (runs : List (ℕ × RoguelikeRun)) (s : Session) (d : DifficultyTier)
    (stats : ClassLevelStatEntry) (atkMs : ℕ) (affix : ℚ) (isElite : Bool)
    (hd : lookupAL cfg.difficulties s.difficultyId = some d) :
    bossOnlyDmgMult cfg runs s =
      (if s.players.length ≤ 1 then cfg.soloMultiplier
       else 1 + ((s.players.length - 1 : ℕ) : ℚ) * cfg.perPlayerDamageMult) *
      (if s.roguelikeRunId ≠ 0 then getTierDamageMultiplier cfg runs s.roguelikeRunId
       else 1) ∧
    calculateDamageMultiplier cfg runs s =
      d.damageMultiplier * bossOnlyDmgMult cfg runs s ∧
    bossMeleeDamage cfg runs s stats atkMs affix =
      scaledMeleeDamage stats atkMs (bossOnlyDmgMult cfg runs s)
        (cfg.bossDamageMult * affix) ∧
    trashMeleeDamage cfg runs s stats atkMs isElite affix =
      scaledMeleeDamage stats atkMs (d.damageMultiplier * bossOnlyDmgMult cfg runs s)
        ((if isElite then (3/2 : ℚ) else 1) * affix) := by
  have h2 : calculateDamageMultiplier cfg runs s =
      d.damageMultiplier * bossOnlyDmgMult cfg runs s := by
    simp only [calculateDamageMultiplier, bossOnlyDmgMult, hd]
    split_ifs <;> ring
  refine ⟨?_, h2, rfl, ?_⟩
  · simp only [bossOnlyDmgMult]
    split_ifs <;> ring
  · simp only [trashMeleeDamage, h2]

/-- Witness for C6: a solo session on a tier with `DamageMultiplier = 2`,
solo multiplier `1/2`, boss-damage multiplier `3`: the boss min damage is
`(10 + 1)·2·(1/2)·3 = 33` — the tier's factor 2 does not appear — while the
trash min damage is `(10 + 1)·2·(2·1/2) = 22`. -/
theorem boss_damage_omits_tier_multiplier_witness :
    lookupAL [(1, (⟨1, 1, 80, 1, 2⟩ : DifficultyTier))] 1 =
      some (⟨1, 1, 80, 1, 2⟩ : DifficultyTier) ∧
    calculateDamageMultiplier
      ⟨3, 1/2, 1/2, 1/10, 2, 5, 3, 100, 1/10, 1/10, 1/20, 5, 23/20,
        [(1, ⟨1, 1, 80, 1, 2⟩)]⟩ []
      ⟨1, SessionState.InProgress, 1, 36, 0, true, 25, 22, 28, 0, 0, 0,
        [⟨10, 0, 0, 0⟩], [], [], 0, 0, 0, 0, 0⟩ =
      2 * bossOnlyDmgMult
        ⟨3, 1/2, 1/2, 1/10, 2, 5, 3, 100, 1/10, 1/10, 1/20, 5, 23/20,
          [(1, ⟨1, 1, 80, 1, 2⟩)]⟩ []
        ⟨1, SessionState.InProgress, 1, 36, 0, true, 25, 22, 28, 0, 0, 0,
          [⟨10, 0, 0, 0⟩], [], [], 0, 0, 0, 0, 0⟩ ∧
    (bossMeleeDamage
      ⟨3, 1/2, 1/2, 1/10, 2, 5, 3, 100, 1/10, 1/10, 1/20, 5, 23/20,
        [(1, ⟨1, 1, 80, 1, 2⟩)]⟩ []
      ⟨1, SessionState.InProgress, 1, 36, 0, true, 25, 22, 28, 0, 0, 0,
        [⟨10, 0, 0, 0⟩], [], [], 0, 0, 0, 0, 0⟩
      ⟨100, 10, 50, 14⟩ 2000 1).1 = 33 ∧
    (trashMeleeDamage
      ⟨3, 1/2, 1/2, 1/10, 2, 5, 3, 100, 1/10, 1/10, 1/20, 5, 23/20,
        [(1, ⟨1, 1, 80, 1, 2⟩)]⟩ []
      ⟨1, SessionState.InProgress, 1, 36, 0, true, 25, 22, 28, 0, 0, 0,
        [⟨10, 0, 0, 0⟩], [], [], 0, 0, 0, 0, 0⟩
      ⟨100, 10, 50, 14⟩ 2000 false 1).1 = 22 := by
  have h := boss_damage_omits_tier_multiplier
    ⟨3, 1/2, 1/2, 1/10, 2, 5, 3, 100, 1/10, 1/10, 1/20, 5, 23/20,
      [(1, ⟨1, 1, 80, 1, 2⟩)]⟩ []
    ⟨1, SessionState.InProgress, 1, 36, 0, true, 25, 22, 28, 0, 0, 0,
      [⟨10, 0, 0, 0⟩], [], [], 0, 0, 0, 0, 0⟩ ⟨1, 1, 80, 1, 2⟩
    ⟨100, 10, 50, 14⟩ 2000 1 false rfl
  refine ⟨rfl, h.2.1, ?_, ?_⟩
  · norm_num [bossMeleeDamage, scaledMeleeDamage, bossOnlyDmgMult]
  · norm_num [trashMeleeDamage, scaledMeleeDamage, calculateDamageMultiplier,
      lookupAL, getTierDamageMultiplier]

/-! ## C3 — each player is indexed at most once -/

/-- **C3.** The player→session and player→run indices hold at most one
entry per player identifier: registration via `operator[]` (insert-or-
replace) preserves key uniqueness for `CreateSession`'s player loop and for
`StartRun`'s registration block, erasure preserves it, and a unique-keyed
index counts every player identifier at most once — so creating a session
never leaves a player indexed to two sessions. -/
theorem player_indexed_at_most_once (pToS pToR : List (ℕ × ℕ))
    (sid runId : ℕ) (players : List PlayerSessionData) (rplayers : List ℕ)
    (g k : ℕ) (hs : NodupKeys pToS) (hr : NodupKeys pToR) :
    NodupKeys (registerSessionPlayers sid players pToS) ∧
    NodupKeys (registerRunPlayers runId rplayers pToR) ∧
    ((registerSessionPlayers sid players pToS).map Prod.fst).count g ≤ 1 ∧
    ((registerRunPlayers runId rplayers pToR).map Prod.fst).count g ≤ 1 ∧
    NodupKeys (eraseAL pToS k) := by
  have h1 := nodupKeys_registerSessionPlayers sid players pToS hs
  have h2 := nodupKeys_registerRunPlayers runId rplayers pToR hr
  exact ⟨h1, h2, List.nodup_iff_count_le_one.mp h1 g,
    List.nodup_iff_count_le_one.mp h2 g, nodupKeys_eraseAL pToS k hs⟩

/-- Witness for C3: registering a two-player party (one player already
present in the index) keeps every key unique. -/
theorem player_indexed_at_most_once_witness :
    NodupKeys [((10 : ℕ), (1 : ℕ))] ∧
    NodupKeys (registerSessionPlayers 2
      [⟨10, 0, 0, 0⟩, ⟨11, 0, 0, 0⟩] [(10, 1)]) ∧
    ((registerSessionPlayers 2 [⟨10, 0, 0, 0⟩, ⟨11, 0, 0, 0⟩]
        [(10, 1)]).map Prod.fst).count 10 ≤ 1 := by
  have h := player_indexed_at_most_once [(10, 1)] [] 2 7
    [⟨10, 0, 0, 0⟩, ⟨11, 0, 0, 0⟩] [] 10 10
    (by unfold NodupKeys; decide) (by unfold NodupKeys; decide)
  exact ⟨by unfold NodupKeys; decide, h.1, h.2.2.1⟩

/-! ## C8 — ending a session removes it from every index -/

theorem cleanup_activeSessions_none (m : MgrState) (sid id : ℕ)
    (h : lookupAL m.activeSessions id = none) :
    lookupAL (cleanupRoguelikeSession m sid).activeSessions id = none := by
  unfold cleanupRoguelikeSession
  cases hf : lookupAL m.activeSessions sid with
  | none => simpa using h
  | some s2 =>
    simp only [eraseSessionMappings]
    exact lookupAL_eraseAL_of_none _ _ _ h

theorem cleanup_instanceToSession_none (m : MgrState) (sid j : ℕ)
    (h : lookupAL m.instanceToSession j = none) :
    lookupAL (cleanupRoguelikeSession m sid).instanceToSession j = none := by
  unfold cleanupRoguelikeSession
  cases hf : lookupAL m.activeSessions sid with
  | none => simpa using h
  | some s2 =>
    simp only [eraseSessionMappings]
    by_cases hi : s2.instanceId ≠ 0
    · rw [if_pos hi]
      exact lookupAL_eraseAL_of_none _ _ _ h
    · rw [if_neg hi]
      exact h

theorem cleanup_playerToSession_none (m : MgrState) (sid g : ℕ)
    (h : lookupAL m.playerToSession g = none) :
    lookupAL (cleanupRoguelikeSession m sid).playerToSession g = none := by
  unfold cleanupRoguelikeSession
  cases hf : lookupAL m.activeSessions sid with
  | none => simpa using h
  | some s2 =>
    simp only [eraseSessionMappings]
    exact lookupAL_foldl_eraseAL_of_none _ _ _ _ h

theorem endRunCleanup_activeSessions_none (m : MgrState) (rid id : ℕ)
    (h : lookupAL m.activeSessions id = none) :
    lookupAL (endRunIndexCleanup m rid).activeSessions id = none := by
  unfold endRunIndexCleanup
  cases hf : lookupAL m.activeRuns rid with
  | none => simpa using h
  | some run =>
    by_cases hc : run.currentSessionId ≠ 0
    · simp only [if_pos hc]
      exact cleanup_activeSessions_none _ _ _ h
    · simp only [if_neg hc]
      exact h

theorem endRunCleanup_instanceToSession_none (m : MgrState) (rid j : ℕ)
    (h : lookupAL m.instanceToSession j = none) :
    lookupAL (endRunIndexCleanup m rid).instanceToSession j = none := by
  unfold endRunIndexCleanup
  cases hf : lookupAL m.activeRuns rid with
  | none => simpa using h
  | some run =>
    by_cases hc : run.currentSessionId ≠ 0
    · simp only [if_pos hc]
      exact cleanup_instanceToSession_none _ _ _ h
    · simp only [if_neg hc]
      exact h

theorem endRunCleanup_playerToSession_none (m : MgrState) (rid g : ℕ)
    (h : lookupAL m.playerToSession g = none) :
    lookupAL (endRunIndexCleanup m rid).playerToSession g = none := by
  unfold endRunIndexCleanup
  cases hf : lookupAL m.activeRuns rid with
  | none => simpa using h
  | some run =>
    by_cases hc : run.currentSessionId ≠ 0
    · simp only [if_pos hc]
      exact cleanup_playerToSession_none _ _ _ h
    · simp only [if_neg hc]
      exact h

/-- **C8.** After `EndSession` returns — on the normal path and on the
roguelike-delegation path alike — the ended session is gone from every
index: `GetSession` is null, `GetSessionByInstance` is null for its
instance id (when one was registered), and `GetSessionByPlayer` is null for
every player that was in the session. -/
theorem endSession_removes_all_indices (m : MgrState) (id : ℕ) (s : Session)
    (hs : lookupAL m.activeSessions id = some s) :
    getSession (endSession m id) id = none ∧
    (s.instanceId ≠ 0 → getSessionByInstance (endSession m id) s.instanceId = none) ∧
    (∀ pd ∈ s.players, getSessionByPlayer (endSession m id) pd.playerGuid = none) := by
  have f1 : lookupAL (eraseSessionMappings m s id).activeSessions id = none := by
    simp only [eraseSessionMappings]
    exact lookupAL_eraseAL_self _ _
  have f2 : s.instanceId ≠ 0 →
      lookupAL (eraseSessionMappings m s id).instanceToSession s.instanceId = none := by
    intro hi
    simp only [eraseSessionMappings, if_pos hi]
    exact lookupAL_eraseAL_self _ _
  have f3 : ∀ pd ∈ s.players,
      lookupAL (eraseSessionMappings m s id).playerToSession pd.playerGuid = none := by
    intro pd hpd
    simp only [eraseSessionMappings]
    exact lookupAL_foldl_eraseAL_mem _ s.players _ pd hpd
  simp only [endSession, hs]
  by_cases hrog : s.roguelikeRunId ≠ 0
  · rw [if_pos hrog]
    refine ⟨?_, ?_, ?_⟩
    · simp only [getSession]
      exact endRunCleanup_activeSessions_none _ _ _ f1
    · intro hi
      simp only [getSessionByInstance]
      rw [endRunCleanup_instanceToSession_none _ _ _ (f2 hi)]
    · intro pd hpd
      simp only [getSessionByPlayer]
      rw [endRunCleanup_playerToSession_none _ _ _ (f3 pd hpd)]
  · rw [if_neg hrog]
    refine ⟨?_, ?_, ?_⟩
    · simpa only [getSession] using f1
    · intro hi
      simp only [getSessionByInstance]
      rw [f2 hi]
    · intro pd hpd
      simp only [getSessionByPlayer]
      rw [f3 pd hpd]

/-- Witness for C8: a one-session registry (instance 77, players 10 and 11)
after `EndSession 1` answers none to all three lookups. -/
theorem endSession_removes_all_indices_witness :
    lookupAL
      [((1 : ℕ), (⟨1, SessionState.Completed, 1, 36, 77, true, 25, 22, 28, 0, 0, 0,
        [⟨10, 0, 0, 0⟩, ⟨11, 0, 0, 0⟩], [], [], 0, 0, 0, 0, 0⟩ : Session))] 1 =
      some ⟨1, SessionState.Completed, 1, 36, 77, true, 25, 22, 28, 0, 0, 0,
        [⟨10, 0, 0, 0⟩, ⟨11, 0, 0, 0⟩], [], [], 0, 0, 0, 0, 0⟩ ∧
    getSession (endSession
      ⟨[(1, ⟨1, SessionState.Completed, 1, 36, 77, true, 25, 22, 28, 0, 0, 0,
          [⟨10, 0, 0, 0⟩, ⟨11, 0, 0, 0⟩], [], [], 0, 0, 0, 0, 0⟩)],
        [(77, 1)], [(10, 1), (11, 1)], [], [], []⟩ 1) 1 = none ∧
    getSessionByInstance (endSession
      ⟨[(1, ⟨1, SessionState.Completed, 1, 36, 77, true, 25, 22, 28, 0, 0, 0,
          [⟨10, 0, 0, 0⟩, ⟨11, 0, 0, 0⟩], [], [], 0, 0, 0, 0, 0⟩)],
        [(77, 1)], [(10, 1), (11, 1)], [], [], []⟩ 1) 77 = none ∧
    getSessionByPlayer (endSession
      ⟨[(1, ⟨1, SessionState.Completed, 1, 36, 77, true, 25, 22, 28, 0, 0, 0,
          [⟨10, 0, 0, 0⟩, ⟨11, 0, 0, 0⟩], [], [], 0, 0, 0, 0, 0⟩)],
        [(77, 1)], [(10, 1), (11, 1)], [], [], []⟩ 1) 11 = none := by
  have h := endSession_removes_all_indices
    ⟨[(1, ⟨1, SessionState.Completed, 1, 36, 77, true, 25, 22, 28, 0, 0, 0,
        [⟨10, 0, 0, 0⟩, ⟨11, 0, 0, 0⟩], [], [], 0, 0, 0, 0, 0⟩)],
      [(77, 1)], [(10, 1), (11, 1)], [], [], []⟩ 1
    ⟨1, SessionState.Completed, 1, 36, 77, true, 25, 22, 28, 0, 0, 0,
      [⟨10, 0, 0, 0⟩, ⟨11, 0, 0, 0⟩], [], [], 0, 0, 0, 0, 0⟩ rfl
  exact ⟨rfl, h.1, h.2.1 (by decide),
    h.2.2 ⟨11, 0, 0, 0⟩ (by decide)⟩

/-! ## C9 — abandonment detection -/

/-- **C9.** An active session transitions to `Abandoned` at a tick exactly
when the 15-second grace period since `StartTime` has elapsed and no party
member is on the dungeon map — provided the time limit has not also expired
(the time-limit check runs first and marks the session `Failed` instead).
Unconditionally, while any party member is present or before the grace
period has elapsed, the session is never marked `Abandoned`. -/
theorem abandonment_transition (env : TickEnv) (s : Session)
    (hA : s.IsActive = true)
    (htl : s.timeLimit = 0 ∨ env.now - s.startTime < s.timeLimit) :
    ((sessionTickTransition env s).state = SessionState.Abandoned ↔
       15 ≤ env.now - s.startTime ∧ anyonePresent env s = false) ∧
    (∀ env2 : TickEnv, anyonePresent env2 s = true ∨ env2.now - s.startTime < 15 →
       (sessionTickTransition env2 s).state ≠ SessionState.Abandoned) := by
  have hnotl : ¬ (0 < s.timeLimit ∧ s.state = SessionState.InProgress ∧
      s.timeLimit ≤ env.now - s.startTime) := by
    rcases htl with h | h
    · rintro ⟨h1, -, -⟩
      omega
    · rintro ⟨-, -, h3⟩
      omega
  constructor
  · constructor
    · intro hab
      simp only [sessionTickTransition] at hab
      rw [if_neg (by simpa using hnotl)] at hab
      by_cases hcond : (s.IsActive && decide (15 ≤ env.now - s.startTime) &&
          !(anyonePresent env s)) = true
      · rcases Bool.and_eq_true_iff.mp hcond with ⟨h12, h3⟩
        rcases Bool.and_eq_true_iff.mp h12 with ⟨-, h2⟩
        exact ⟨of_decide_eq_true h2, by simpa using h3⟩
      · rw [if_neg (by simpa using hcond)] at hab
        simp [Session.IsActive, hab] at hA
    · rintro ⟨h15, hno⟩
      simp only [sessionTickTransition]
      rw [if_neg (by simpa using hnotl),
        if_pos (by simp [hA, h15, hno])]
  · intro env2 hpres
    simp only [sessionTickTransition]
    by_cases h1 : (0 < s.timeLimit && decide (s.state = SessionState.InProgress) &&
        decide (s.timeLimit ≤ env2.now - s.startTime)) = true
    · rw [if_pos h1]
      simp
    · rw [if_neg h1]
      by_cases h2 : (s.IsActive && decide (15 ≤ env2.now - s.startTime) &&
          !(anyonePresent env2 s)) = true
      · exfalso
        rcases Bool.and_eq_true_iff.mp h2 with ⟨h12, h3⟩
        rcases Bool.and_eq_true_iff.mp h12 with ⟨-, hge⟩
        rcases hpres with hp | hp
        · rw [hp] at h3
          simp at h3
        · have := of_decide_eq_true hge
          omega
      · rw [if_neg h2]
        intro hab
        simp [Session.IsActive, hab] at hA

/-- Witness for C9: an in-progress, no-time-limit session started at t = 0
with players 10 and 11; at t = 20 with nobody on the map it is `Abandoned`,
and it is not abandoned while player 10 is still on the map. -/
theorem abandonment_transition_witness :
    ((⟨1, SessionState.InProgress, 1, 36, 0, true, 25, 22, 28, 0, 0, 0,
        [⟨10, 0, 0, 0⟩, ⟨11, 0, 0, 0⟩], [], [], 5, 0, 1, 0, 0⟩ : Session).IsActive = true) ∧
    (sessionTickTransition ⟨20, fun _ => false⟩
      ⟨1, SessionState.InProgress, 1, 36, 0, true, 25, 22, 28, 0, 0, 0,
        [⟨10, 0, 0, 0⟩, ⟨11, 0, 0, 0⟩], [], [], 5, 0, 1, 0, 0⟩).state =
      SessionState.Abandoned ∧
    (sessionTickTransition ⟨20, fun g => g = 10⟩
      ⟨1, SessionState.InProgress, 1, 36, 0, true, 25, 22, 28, 0, 0, 0,
        [⟨10, 0, 0, 0⟩, ⟨11, 0, 0, 0⟩], [], [], 5, 0, 1, 0, 0⟩).state ≠
      SessionState.Abandoned := by
  have h := abandonment_transition ⟨20, fun _ => false⟩
    ⟨1, SessionState.InProgress, 1, 36, 0, true, 25, 22, 28, 0, 0, 0,
      [⟨10, 0, 0, 0⟩, ⟨11, 0, 0, 0⟩], [], [], 5, 0, 1, 0, 0⟩ rfl (Or.inl rfl)
  refine ⟨rfl, h.1.mpr (by decide), h.2 ⟨20, fun g => g = 10⟩ (Or.inl (by decide))⟩

/-! ## Helper lemmas on the phase-check resolution loop -/

theorem isActive_ne_completed (s : Session) (h : s.IsActive = true) :
    s.state ≠ SessionState.Completed := by
  intro heq
  rw [Session.IsActive, heq] at h
  simp at h

theorem resolveChecks_totalBosses (env : ResolveEnv) :
    ∀ (checks : List PendingPhaseCheck) (s : Session) (tracked : List ℕ),
      (resolveChecks env s tracked checks).1.totalBosses = s.totalBosses := by
  intro checks
  induction checks with
  | nil => intro s tracked; simp [resolveChecks]
  | cons ppc rest ih =>
    intro s tracked
    simp only [resolveChecks]
    by_cases hc : (ppc.resolved || decide (env.nowTime - ppc.deathTime < 5)) = true
    · rw [if_pos hc]
      simpa using ih s tracked
    · rw [if_neg hc]
      cases hscan : scanForPhaseCreature env tracked ppc.deathPos with
      | some nc =>
        simp only [hscan]
        simpa using ih _ _
      | none =>
        simp only [hscan]
        by_cases hcp : completionReached (confirmBossKill s) = true
        · rw [if_pos hcp]
          simp [confirmBossKill]
        · rw [if_neg hcp]
          simpa [confirmBossKill] using ih (confirmBossKill s) tracked

theorem resolveChecks_bossesKilled_le (env : ResolveEnv) :
    ∀ (checks : List PendingPhaseCheck) (s : Session) (tracked : List ℕ),
      s.bossesKilled ≤ (resolveChecks env s tracked checks).1.bossesKilled := by
  intro checks
  induction checks with
  | nil => intro s tracked; simp [resolveChecks]
  | cons ppc rest ih =>
    intro s tracked
    simp only [resolveChecks]
    by_cases hc : (ppc.resolved || decide (env.nowTime - ppc.deathTime < 5)) = true
    · rw [if_pos hc]
      simpa using ih s tracked
    · rw [if_neg hc]
      cases hscan : scanForPhaseCreature env tracked ppc.deathPos with
      | some nc =>
        simp only [hscan]
        have h := ih { s with spawnedCreatures :=
          s.spawnedCreatures ++ [promoteCreature nc] } (tracked ++ [nc.guid])
        simpa using h
      | none =>
        simp only [hscan]
        by_cases hcp : completionReached (confirmBossKill s) = true
        · rw [if_pos hcp]
          simp [confirmBossKill]
        · rw [if_neg hcp]
          have := ih (confirmBossKill s) tracked
          simp only [confirmBossKill] at this
          simpa using le_trans (Nat.le_succ _) this

theorem resolveChecks_completion (env : ResolveEnv) :
    ∀ (checks : List PendingPhaseCheck) (s : Session) (tracked : List ℕ),
      s.IsActive = true → s.bossesKilled < s.totalBosses →
      ((resolveChecks env s tracked checks).1.state = s.state ∧
         (resolveChecks env s tracked checks).1.bossesKilled < s.totalBosses) ∨
      ((resolveChecks env s tracked checks).1.state = SessionState.Completed ∧
         (resolveChecks env s tracked checks).1.bossesKilled = s.totalBosses) := by
  intro checks
  induction checks with
  | nil =>
    intro s tracked hA hlt
    exact Or.inl ⟨rfl, hlt⟩
  | cons ppc rest ih =>
    intro s tracked hA hlt
    simp only [resolveChecks]
    by_cases hc : (ppc.resolved || decide (env.nowTime - ppc.deathTime < 5)) = true
    · rw [if_pos hc]
      simpa using ih s tracked hA hlt
    · rw [if_neg hc]
      cases hscan : scanForPhaseCreature env tracked ppc.deathPos with
      | some nc =>
        simp only [hscan]
        have h := ih { s with spawnedCreatures :=
          s.spawnedCreatures ++ [promoteCreature nc] } (tracked ++ [nc.guid]) hA hlt
        simpa using h
      | none =>
        simp only [hscan]
        have hact : (confirmBossKill s).IsActive = true := hA
        by_cases hcp : completionReached (confirmBossKill s) = true
        · rw [if_pos hcp]
          simp only [completionReached, confirmBossKill, Bool.and_eq_true,
            decide_eq_true_eq] at hcp
          right
          refine ⟨rfl, ?_⟩
          have := hcp.2
          simp [confirmBossKill]
          omega
        · rw [if_neg hcp]
          simp only [completionReached, hact, Bool.and_eq_true,
            decide_eq_true_eq] at hcp
          have h0 : 0 < s.totalBosses := by omega
          have hlt2 : (confirmBossKill s).bossesKilled < s.totalBosses := by
            simp only [confirmBossKill]
            by_contra hge
            exact hcp ⟨⟨trivial, h0⟩, by simpa [confirmBossKill] using hge⟩
          simpa using ih (confirmBossKill s) tracked hact hlt2

theorem handleCreatureDeath_preserves (now guid : ℕ) (pos : Position)
    (entry : ℕ) (s : Session) :
    (handleCreatureDeath now guid pos entry s).1.state = s.state ∧
    (handleCreatureDeath now guid pos entry s).1.bossesKilled = s.bossesKilled := by
  unfold handleCreatureDeath
  by_cases hA : (!s.IsActive) = true
  · rw [if_pos hA]
    exact ⟨rfl, rfl⟩
  · rw [if_neg hA]
    cases hf : (findMark guid s.spawnedCreatures).2 with
    | none => simp [hf]
    | some p =>
      rcases p with ⟨sc, b⟩
      cases b
      · simp only [hf]
        by_cases hb : sc.isBoss = true
        · rw [if_pos hb]
          exact ⟨rfl, rfl⟩
        · rw [if_neg hb]
          exact ⟨rfl, rfl⟩
      · simp [hf]

theorem handleCreatureDeath_boss_enqueue (now guid : ℕ) (pos : Position)
    (entry : ℕ) (s : Session) (sc : SpawnedCreature)
    (hA : s.IsActive = true)
    (hfind : (findMark guid s.spawnedCreatures).2 = some (sc, false))
    (hboss : sc.isBoss = true) :
    (handleCreatureDeath now guid pos entry s).1.pendingPhaseChecks =
      s.pendingPhaseChecks ++
        [{ deathPos := pos, deathTime := now, origEntry := entry, resolved := false }] ∧
    (handleCreatureDeath now guid pos entry s).2 =
      [DeathEvent.lootFilled true, DeathEvent.xpGranted true sc.isElite] := by
  unfold handleCreatureDeath
  rw [if_neg (by simp [hA])]
  simp only [hfind]
  rw [if_pos hboss]
  exact ⟨rfl, by rw [hboss]⟩

/-! ## C1 — completion fires only through confirmed phase-check resolution -/

/-- **C1.** A raw boss death (`HandleCreatureDeath` finding a live tracked
boss) never changes the session state or the confirmed `BossesKilled`
counter: it only appends a `PendingPhaseCheck` while loot and
kill-experience events are still emitted at death time.  In the phase-check
resolution step of `Update`, a session with `BossesKilled < TotalBosses`
transitions to `Completed` exactly when the confirmed counter reaches
`TotalBosses` (which is itself preserved). -/
theorem boss_completion_protocol (env : ResolveEnv) (s : Session)
    (now guid : ℕ) (pos : Position) (entry : ℕ) (sc : SpawnedCreature)
    (hA : s.IsActive = true)
    (hlt : s.bossesKilled < s.totalBosses)
    (hfind : (findMark guid s.spawnedCreatures).2 = some (sc, false))
    (hboss : sc.isBoss = true) :
    (handleCreatureDeath now guid pos entry s).1.state = s.state ∧
    (handleCreatureDeath now guid pos entry s).1.bossesKilled = s.bossesKilled ∧
    (handleCreatureDeath now guid pos entry s).1.pendingPhaseChecks =
      s.pendingPhaseChecks ++
        [{ deathPos := pos, deathTime := now, origEntry := entry, resolved := false }] ∧
    (handleCreatureDeath now guid pos entry s).2 =
      [DeathEvent.lootFilled true, DeathEvent.xpGranted true sc.isElite] ∧
    (updatePhaseStep env s).totalBosses = s.totalBosses ∧
    ((updatePhaseStep env s).state = SessionState.Completed ↔
       s.totalBosses ≤ (updatePhaseStep env s).bossesKilled) := by
  have hpres := handleCreatureDeath_preserves now guid pos entry s
  have henq := handleCreatureDeath_boss_enqueue now guid pos entry s sc hA hfind hboss
  have htot : (updatePhaseStep env s).totalBosses = s.totalBosses := by
    simp only [updatePhaseStep]
    exact resolveChecks_totalBosses env s.pendingPhaseChecks s _
  have hcmp := resolveChecks_completion env s.pendingPhaseChecks s
    (s.spawnedCreatures.map (fun c => c.guid)) hA hlt
  have hstep1 : (updatePhaseStep env s).state =
      (resolveChecks env s (s.spawnedCreatures.map (fun c => c.guid))
        s.pendingPhaseChecks).1.state := rfl
  have hstep2 : (updatePhaseStep env s).bossesKilled =
      (resolveChecks env s (s.spawnedCreatures.map (fun c => c.guid))
        s.pendingPhaseChecks).1.bossesKilled := rfl
  refine ⟨hpres.1, hpres.2, henq.1, henq.2, htot, ?_⟩
  rw [hstep1, hstep2]
  constructor
  · intro hcompl
    rcases hcmp with ⟨hst, -⟩ | ⟨-, hbk⟩
    · exact absurd (hst ▸ hcompl) (isActive_ne_completed s hA)
    · omega
  · intro hge
    rcases hcmp with ⟨-, hbk⟩ | ⟨hst, -⟩
    · omega
    · exact hst

/-- Witness for C1: a one-boss in-progress session; the raw boss death
enqueues a check and changes neither state nor counter, and the resolution
step (5 s later, no phase creature nearby) completes the session as its
counter reaches 1. -/
theorem boss_completion_protocol_witness :
    ((⟨1, SessionState.InProgress, 1, 36, 4, true, 25, 22, 28, 0, 0, 0,
        [⟨10, 0, 0, 0⟩], [⟨90, 555, true, true, false⟩],
        [⟨⟨1, 1, 1, 0⟩, 100, 555, false⟩], 5, 5, 1, 0, 0⟩ : Session).IsActive = true) ∧
    ((0 : ℕ) < 1) ∧
    (findMark 90 [⟨90, 555, true, true, false⟩] =
      ([⟨90, 555, true, true, true⟩], some (⟨90, 555, true, true, false⟩, false))) ∧
    ((handleCreatureDeath 100 90 ⟨1, 1, 1, 0⟩ 555
        ⟨1, SessionState.InProgress, 1, 36, 4, true, 25, 22, 28, 0, 0, 0,
          [⟨10, 0, 0, 0⟩], [⟨90, 555, true, true, false⟩],
          [⟨⟨1, 1, 1, 0⟩, 100, 555, false⟩], 5, 5, 1, 0, 0⟩).1.state =
      SessionState.InProgress) ∧
    ((updatePhaseStep ⟨106, true, 70000, []⟩
        ⟨1, SessionState.InProgress, 1, 36, 4, true, 25, 22, 28, 0, 0, 0,
          [⟨10, 0, 0, 0⟩], [⟨90, 555, true, true, false⟩],
          [⟨⟨1, 1, 1, 0⟩, 100, 555, false⟩], 5, 5, 1, 0, 0⟩).state =
        SessionState.Completed ↔
      (1 : ℕ) ≤ (updatePhaseStep ⟨106, true, 70000, []⟩
        ⟨1, SessionState.InProgress, 1, 36, 4, true, 25, 22, 28, 0, 0, 0,
          [⟨10, 0, 0, 0⟩], [⟨90, 555, true, true, false⟩],
          [⟨⟨1, 1, 1, 0⟩, 100, 555, false⟩], 5, 5, 1, 0, 0⟩).bossesKilled) := by
  have h := boss_completion_protocol ⟨106, true, 70000, []⟩
    ⟨1, SessionState.InProgress, 1, 36, 4, true, 25, 22, 28, 0, 0, 0,
      [⟨10, 0, 0, 0⟩], [⟨90, 555, true, true, false⟩],
      [⟨⟨1, 1, 1, 0⟩, 100, 555, false⟩], 5, 5, 1, 0, 0⟩
    100 90 ⟨1, 1, 1, 0⟩ 555 ⟨90, 555, true, true, false⟩
    rfl (by decide) (by decide) rfl
  exact ⟨rfl, by decide, by decide, h.1, h.2.2.2.2.2⟩

theorem resolveChecks_players (env : ResolveEnv) :
    ∀ (checks : List PendingPhaseCheck) (s : Session) (tracked : List ℕ),
      (resolveChecks env s tracked checks).1.players =
        s.players.map (bumpBossKills
          ((resolveChecks env s tracked checks).1.bossesKilled - s.bossesKilled)) := by
  intro checks
  induction checks with
  | nil =>
    intro s tracked
    have hzero : bumpBossKills 0 = id := by
      funext pd
      simp [bumpBossKills]
    simp only [resolveChecks, Nat.sub_self, hzero, List.map_id]
  | cons ppc rest ih =>
    intro s tracked
    simp only [resolveChecks]
    by_cases hc : (ppc.resolved || decide (env.nowTime - ppc.deathTime < 5)) = true
    · rw [if_pos hc]
      simpa using ih s tracked
    · rw [if_neg hc]
      cases hscan : scanForPhaseCreature env tracked ppc.deathPos with
      | some nc =>
        simp only [hscan]
        have h := ih { s with spawnedCreatures :=
          s.spawnedCreatures ++ [promoteCreature nc] } (tracked ++ [nc.guid])
        simpa using h
      | none =>
        simp only [hscan]
        by_cases hcp : completionReached (confirmBossKill s) = true
        · rw [if_pos hcp]
          simp [confirmBossKill, bumpBossKills]
        · rw [if_neg hcp]
          have hle : s.bossesKilled + 1 ≤
              (resolveChecks env (confirmBossKill s) tracked rest).1.bossesKilled :=
            resolveChecks_bossesKilled_le env rest (confirmBossKill s) tracked
          have h := ih (confirmBossKill s) tracked
          have hfun : bumpBossKills
                ((resolveChecks env (confirmBossKill s) tracked rest).1.bossesKilled
                  - (s.bossesKilled + 1)) ∘
              (fun pd => { pd with bossesKilled := pd.bossesKilled + 1 }) =
              bumpBossKills
                ((resolveChecks env (confirmBossKill s) tracked rest).1.bossesKilled
                  - s.bossesKilled) := by
            funext pd
            simp only [Function.comp, bumpBossKills]
            congr 1
            omega
          have e1 : (confirmBossKill s).players =
              s.players.map (fun pd => { pd with bossesKilled := pd.bossesKilled + 1 }) := rfl
          have e2 : (confirmBossKill s).bossesKilled = s.bossesKilled + 1 := rfl
          dsimp only
          rw [h, e1, e2, List.map_map, hfun]

theorem resolveChecks_conservation (env : ResolveEnv) :
    ∀ (checks : List PendingPhaseCheck) (s : Session) (tracked : List ℕ),
      (resolveChecks env s tracked checks).1.bossesKilled +
        (resolveChecks env s tracked checks).1.spawnedCreatures.length +
        ((resolveChecks env s tracked checks).2.filter
          (fun p => !p.resolved)).length =
      s.bossesKilled + s.spawnedCreatures.length +
        (checks.filter (fun p => !p.resolved)).length := by
  intro checks
  induction checks with
  | nil =>
    intro s tracked
    simp [resolveChecks]
  | cons ppc rest ih =>
    intro s tracked
    simp only [resolveChecks]
    by_cases hc : (ppc.resolved || decide (env.nowTime - ppc.deathTime < 5)) = true
    · rw [if_pos hc]
      have h := ih s tracked
      dsimp only
      rw [List.filter_cons, List.filter_cons]
      cases hres : ppc.resolved <;> simp [hres] <;> omega
    · rw [if_neg hc]
      have hres : ppc.resolved = false := by
        cases hres : ppc.resolved
        · rfl
        · exact absurd (by simp [hres]) hc
      cases hscan : scanForPhaseCreature env tracked ppc.deathPos with
      | some nc =>
        simp only [hscan]
        have h := ih { s with spawnedCreatures :=
          s.spawnedCreatures ++ [promoteCreature nc] } (tracked ++ [nc.guid])
        simp only [List.length_append, List.length_cons, List.length_nil] at h
        rw [List.filter_cons, List.filter_cons]
        simp [hres]
        omega
      | none =>
        simp only [hscan]
        by_cases hcp : completionReached (confirmBossKill s) = true
        · rw [if_pos hcp]
          dsimp only
          rw [List.filter_cons, List.filter_cons]
          simp [hres, confirmBossKill]
          omega
        · rw [if_neg hcp]
          have h := ih (confirmBossKill s) tracked
          have e1 : (confirmBossKill s).bossesKilled = s.bossesKilled + 1 := rfl
          have e2 : (confirmBossKill s).spawnedCreatures = s.spawnedCreatures := rfl
          rw [e1, e2] at h
          rw [List.filter_cons, List.filter_cons]
          simp [hres]
          omega

theorem resolveChecks_sublist (env : ResolveEnv) :
    ∀ (checks : List PendingPhaseCheck) (s : Session) (tracked : List ℕ),
      ((resolveChecks env s tracked checks).2.filter
        (fun p => !p.resolved)).Sublist checks := by
  intro checks
  induction checks with
  | nil =>
    intro s tracked
    simp [resolveChecks]
  | cons ppc rest ih =>
    intro s tracked
    simp only [resolveChecks]
    by_cases hc : (ppc.resolved || decide (env.nowTime - ppc.deathTime < 5)) = true
    · rw [if_pos hc]
      dsimp only
      rw [List.filter_cons]
      cases hres : ppc.resolved
      · simp only [hres, Bool.not_false, if_pos]
        exact List.Sublist.cons₂ ppc (ih s tracked)
      · simp only [hres, Bool.not_true]
        exact List.Sublist.cons ppc (ih s tracked)
    · rw [if_neg hc]
      cases hscan : scanForPhaseCreature env tracked ppc.deathPos with
      | some nc =>
        simp only [hscan]
        rw [List.filter_cons]
        simp only [Bool.not_true]
        exact List.Sublist.cons ppc (ih { s with spawnedCreatures :=
          s.spawnedCreatures ++ [promoteCreature nc] } (tracked ++ [nc.guid]))
      | none =>
        simp only [hscan]
        by_cases hcp : completionReached (confirmBossKill s) = true
        · rw [if_pos hcp]
          dsimp only
          rw [List.filter_cons]
          simp only [Bool.not_true]
          exact List.Sublist.cons ppc (List.filter_sublist rest)
        · rw [if_neg hcp]
          dsimp only
          rw [List.filter_cons]
          simp only [Bool.not_true]
          exact List.Sublist.cons ppc (ih (confirmBossKill s) tracked)

theorem resolveChecks_keep (env : ResolveEnv) :
    ∀ (checks : List PendingPhaseCheck) (s : Session) (tracked : List ℕ)
      (p : PendingPhaseCheck), p ∈ checks → env.nowTime - p.deathTime < 5 →
      p ∈ (resolveChecks env s tracked checks).2 := by
  intro checks
  induction checks with
  | nil =>
    intro s tracked p hp
    cases hp
  | cons ppc rest ih =>
    intro s tracked p hp hnr
    simp only [resolveChecks]
    by_cases hc : (ppc.resolved || decide (env.nowTime - ppc.deathTime < 5)) = true
    · rw [if_pos hc]
      dsimp only
      rcases List.mem_cons.mp hp with rfl | hmem
      · exact List.mem_cons_self _ _
      · exact List.mem_cons_of_mem _ (ih s tracked p hmem hnr)
    · rw [if_neg hc]
      have hready : ¬ (env.nowTime - ppc.deathTime < 5) := by
        intro hlt5
        exact hc (by simp [hlt5])
      rcases List.mem_cons.mp hp with rfl | hmem
      · exact absurd hnr hready
      · cases hscan : scanForPhaseCreature env tracked ppc.deathPos with
        | some nc =>
          simp only [hscan]
          exact List.mem_cons_of_mem _ (ih { s with spawnedCreatures :=
            s.spawnedCreatures ++ [promoteCreature nc] } (tracked ++ [nc.guid]) p hmem hnr)
        | none =>
          simp only [hscan]
          by_cases hcp : completionReached (confirmBossKill s) = true
          · rw [if_pos hcp]
            dsimp only
            exact List.mem_cons_of_mem _ hmem
          · rw [if_neg hcp]
            dsimp only
            exact List.mem_cons_of_mem _ (ih (confirmBossKill s) tracked p hmem hnr)

theorem scanForPhaseCreature_some (env : ResolveEnv) (tracked : List ℕ)
    (dp : Position) (nc : Creature)
    (h : scanForPhaseCreature env tracked dp = some nc) :
    nc ∈ env.nearby ∧ nc.isAlive = true ∧ nc.isPet = false ∧
    nc.isGuardian = false ∧ nc.entry ≠ env.npcEntry ∧
    distSq nc.pos dp ≤ 1600 ∧ (nc.rank = 1 ∨ nc.rank = 2 ∨ nc.rank = 4) := by
  unfold scanForPhaseCreature at h
  by_cases hcond : (env.mapIsDungeon && decide (dp.x ≠ 0)) = true
  · rw [if_pos hcond] at h
    have hmem := List.mem_of_find?_eq_some h
    have hpred := List.find?_some h
    simp only [phaseCandidate, Bool.and_eq_true, Bool.not_eq_true',
      decide_eq_true_eq, Bool.or_eq_true] at hpred
    exact ⟨hmem, hpred.1.1.1.1.1.1, hpred.1.1.1.1.1.2, hpred.1.1.1.1.2,
      hpred.1.1.1.2, hpred.1.2, or_assoc.mp hpred.2⟩
  · rw [if_neg hcond] at h
    cases h

theorem resolveChecks_new_spawned (env : ResolveEnv) :
    ∀ (checks : List PendingPhaseCheck) (s : Session) (tracked : List ℕ)
      (sc : SpawnedCreature),
      sc ∈ (resolveChecks env s tracked checks).1.spawnedCreatures →
      sc ∈ s.spawnedCreatures ∨ ∃ nc, nc ∈ env.nearby ∧ sc = promoteCreature nc ∧
        nc.isAlive = true ∧ nc.isPet = false ∧ nc.isGuardian = false ∧
        nc.entry ≠ env.npcEntry ∧ (nc.rank = 1 ∨ nc.rank = 2 ∨ nc.rank = 4) ∧
        ∃ p, p ∈ checks ∧ distSq nc.pos p.deathPos ≤ 1600 := by
  intro checks
  induction checks with
  | nil =>
    intro s tracked sc hsc
    exact Or.inl (by simpa [resolveChecks] using hsc)
  | cons ppc rest ih =>
    intro s tracked sc hsc
    simp only [resolveChecks] at hsc
    by_cases hc : (ppc.resolved || decide (env.nowTime - ppc.deathTime < 5)) = true
    · rw [if_pos hc] at hsc
      dsimp only at hsc
      rcases ih s tracked sc hsc with h | ⟨nc, h1, h2, h3, h4, h5, h6, h7, p, hp, h8⟩
      · exact Or.inl h
      · exact Or.inr ⟨nc, h1, h2, h3, h4, h5, h6, h7, p,
          List.mem_cons_of_mem _ hp, h8⟩
    · rw [if_neg hc] at hsc
      cases hscan : scanForPhaseCreature env tracked ppc.deathPos with
      | some nc0 =>
        rw [hscan] at hsc
        dsimp only at hsc
        rcases ih { s with spawnedCreatures :=
            s.spawnedCreatures ++ [promoteCreature nc0] } (tracked ++ [nc0.guid])
            sc hsc with h | ⟨nc, h1, h2, h3, h4, h5, h6, h7, p, hp, h8⟩
        · rcases List.mem_append.mp h with h9 | h9
          · exact Or.inl h9
          · have hsc0 : sc = promoteCreature nc0 := by simpa using h9
            have hprops := scanForPhaseCreature_some env tracked ppc.deathPos nc0 hscan
            exact Or.inr ⟨nc0, hprops.1, hsc0, hprops.2.1, hprops.2.2.1,
              hprops.2.2.2.1, hprops.2.2.2.2.1, hprops.2.2.2.2.2.2,
              ppc, List.mem_cons_self _ _, hprops.2.2.2.2.2.1⟩
        · exact Or.inr ⟨nc, h1, h2, h3, h4, h5, h6, h7, p,
            List.mem_cons_of_mem _ hp, h8⟩
      | none =>
        rw [hscan] at hsc
        by_cases hcp : completionReached (confirmBossKill s) = true
        · rw [if_pos hcp] at hsc
          dsimp only at hsc
          exact Or.inl hsc
        · rw [if_neg hcp] at hsc
          dsimp only at hsc
          rcases ih (confirmBossKill s) tracked sc hsc with h |
            ⟨nc, h1, h2, h3, h4, h5, h6, h7, p, hp, h8⟩
          · exact Or.inl h
          · exact Or.inr ⟨nc, h1, h2, h3, h4, h5, h6, h7, p,
              List.mem_cons_of_mem _ hp, h8⟩

/-! ## C2 — phase checks resolve exactly once, with one outcome each -/

/-- **C2.** In one tick's phase-resolution step, with every pending check
unresolved (the invariant the per-tick pruning maintains): no resolved
check survives in the pending list (pruned the same tick); the surviving
list is a sublist of the original; a check only leaves the list once its
5-second grace window has elapsed; each resolved check produces exactly one
of — a promoted tracked boss or a confirmed kill — (the conservation
equation); every player's confirmed counter moves in lockstep with the
session counter; and every promoted creature is a live, non-pet,
non-guardian, elite/boss-rank scan hit within 40 yards of some pending
check's death position. -/
theorem phase_check_resolution (env : ResolveEnv) (s : Session)
    (hall : ∀ p ∈ s.pendingPhaseChecks, p.resolved = false)
    (htime : ∀ p ∈ s.pendingPhaseChecks, p.deathTime ≤ env.nowTime) :
    (∀ p ∈ (updatePhaseStep env s).pendingPhaseChecks, p.resolved = false) ∧
    (updatePhaseStep env s).pendingPhaseChecks.Sublist s.pendingPhaseChecks ∧
    (∀ p ∈ s.pendingPhaseChecks, p ∉ (updatePhaseStep env s).pendingPhaseChecks →
       p.deathTime + 5 ≤ env.nowTime) ∧
    ((updatePhaseStep env s).bossesKilled +
       (updatePhaseStep env s).spawnedCreatures.length +
       (updatePhaseStep env s).pendingPhaseChecks.length =
     s.bossesKilled + s.spawnedCreatures.length + s.pendingPhaseChecks.length) ∧
    ((updatePhaseStep env s).players = s.players.map
       (bumpBossKills ((updatePhaseStep env s).bossesKilled - s.bossesKilled))) ∧
    (∀ sc ∈ (updatePhaseStep env s).spawnedCreatures,
       sc ∈ s.spawnedCreatures ∨ ∃ nc, nc ∈ env.nearby ∧ sc = promoteCreature nc ∧
         nc.isAlive = true ∧ nc.isPet = false ∧ nc.isGuardian = false ∧
         nc.entry ≠ env.npcEntry ∧ (nc.rank = 1 ∨ nc.rank = 2 ∨ nc.rank = 4) ∧
         ∃ p, p ∈ s.pendingPhaseChecks ∧ distSq nc.pos p.deathPos ≤ 1600) := by
  have e0 : (updatePhaseStep env s).pendingPhaseChecks =
      (resolveChecks env s (s.spawnedCreatures.map (fun c => c.guid))
        s.pendingPhaseChecks).2.filter (fun p => !p.resolved) := rfl
  have ebk : (updatePhaseStep env s).bossesKilled =
      (resolveChecks env s (s.spawnedCreatures.map (fun c => c.guid))
        s.pendingPhaseChecks).1.bossesKilled := rfl
  have esp : (updatePhaseStep env s).spawnedCreatures =
      (resolveChecks env s (s.spawnedCreatures.map (fun c => c.guid))
        s.pendingPhaseChecks).1.spawnedCreatures := rfl
  have epl : (updatePhaseStep env s).players =
      (resolveChecks env s (s.spawnedCreatures.map (fun c => c.guid))
        s.pendingPhaseChecks).1.players := rfl
  refine ⟨?_, ?_, ?_, ?_, ?_, ?_⟩
  · intro p hp
    rw [e0] at hp
    have hm := List.mem_filter.mp hp
    simpa using hm.2
  · rw [e0]
    exact resolveChecks_sublist env s.pendingPhaseChecks s _
  · intro p hp hnot
    by_contra hgt
    have hdt := htime p hp
    have h5 : env.nowTime - p.deathTime < 5 := by omega
    have hin := resolveChecks_keep env s.pendingPhaseChecks s
      (s.spawnedCreatures.map (fun c => c.guid)) p hp h5
    exact hnot (by
      rw [e0]
      exact List.mem_filter.mpr ⟨hin, by simp [hall p hp]⟩)
  · have hcons := resolveChecks_conservation env s.pendingPhaseChecks s
      (s.spawnedCreatures.map (fun c => c.guid))
    have hfix : s.pendingPhaseChecks.filter (fun p => !p.resolved) =
        s.pendingPhaseChecks :=
      List.filter_eq_self.mpr (fun p hp => by simp [hall p hp])
    rw [hfix] at hcons
    rw [ebk, esp, e0]
    exact hcons
  · rw [epl, ebk]
    exact resolveChecks_players env s.pendingPhaseChecks s _
  · intro sc hsc
    rw [esp] at hsc
    exact resolveChecks_new_spawned env s.pendingPhaseChecks s _ sc hsc

/-- Witness for C2: two pending checks (one 6 s old, one 2 s old) over a
one-player session tracking one dead boss; a live rank-1 creature stands
one yard from the first check's death position.  The tick resolves exactly
the first check, promotes the creature (counter unchanged), and keeps the
unready check pending. -/
theorem phase_check_resolution_witness :
    (∀ p ∈ [(⟨⟨1, 1, 1, 0⟩, 100, 555, false⟩ : PendingPhaseCheck),
        ⟨⟨9, 9, 9, 0⟩, 104, 556, false⟩], p.resolved = false) ∧
    (∀ p ∈ [(⟨⟨1, 1, 1, 0⟩, 100, 555, false⟩ : PendingPhaseCheck),
        ⟨⟨9, 9, 9, 0⟩, 104, 556, false⟩], p.deathTime ≤ (106 : ℕ)) ∧
    ((updatePhaseStep ⟨106, true, 70000, [⟨200, 777, 1, true, false, false, ⟨2, 1, 1, 0⟩⟩]⟩
        ⟨1, SessionState.InProgress, 1, 36, 4, true, 25, 22, 28, 0, 0, 0,
          [⟨10, 0, 0, 0⟩], [⟨90, 555, true, true, true⟩],
          [⟨⟨1, 1, 1, 0⟩, 100, 555, false⟩, ⟨⟨9, 9, 9, 0⟩, 104, 556, false⟩],
          5, 5, 2, 0, 0⟩).bossesKilled +
      (updatePhaseStep ⟨106, true, 70000, [⟨200, 777, 1, true, false, false, ⟨2, 1, 1, 0⟩⟩]⟩
        ⟨1, SessionState.InProgress, 1, 36, 4, true, 25, 22, 28, 0, 0, 0,
          [⟨10, 0, 0, 0⟩], [⟨90, 555, true, true, true⟩],
          [⟨⟨1, 1, 1, 0⟩, 100, 555, false⟩, ⟨⟨9, 9, 9, 0⟩, 104, 556, false⟩],
          5, 5, 2, 0, 0⟩).spawnedCreatures.length +
      (updatePhaseStep ⟨106, true, 70000, [⟨200, 777, 1, true, false, false, ⟨2, 1, 1, 0⟩⟩]⟩
        ⟨1, SessionState.InProgress, 1, 36, 4, true, 25, 22, 28, 0, 0, 0,
          [⟨10, 0, 0, 0⟩], [⟨90, 555, true, true, true⟩],
          [⟨⟨1, 1, 1, 0⟩, 100, 555, false⟩, ⟨⟨9, 9, 9, 0⟩, 104, 556, false⟩],
          5, 5, 2, 0, 0⟩).pendingPhaseChecks.length = 0 + 1 + 2) ∧
    (updatePhaseStep ⟨106, true, 70000, [⟨200, 777, 1, true, false, false, ⟨2, 1, 1, 0⟩⟩]⟩
        ⟨1, SessionState.InProgress, 1, 36, 4, true, 25, 22, 28, 0, 0, 0,
          [⟨10, 0, 0, 0⟩], [⟨90, 555, true, true, true⟩],
          [⟨⟨1, 1, 1, 0⟩, 100, 555, false⟩, ⟨⟨9, 9, 9, 0⟩, 104, 556, false⟩],
          5, 5, 2, 0, 0⟩).pendingPhaseChecks.Sublist
      [⟨⟨1, 1, 1, 0⟩, 100, 555, false⟩, ⟨⟨9, 9, 9, 0⟩, 104, 556, false⟩] := by
  have h := phase_check_resolution
    ⟨106, true, 70000, [⟨200, 777, 1, true, false, false, ⟨2, 1, 1, 0⟩⟩]⟩
    ⟨1, SessionState.InProgress, 1, 36, 4, true, 25, 22, 28, 0, 0, 0,
      [⟨10, 0, 0, 0⟩], [⟨90, 555, true, true, true⟩],
      [⟨⟨1, 1, 1, 0⟩, 100, 555, false⟩, ⟨⟨9, 9, 9, 0⟩, 104, 556, false⟩],
      5, 5, 2, 0, 0⟩ (by decide) (by decide)
  exact ⟨by decide, by decide, h.2.2.2.1, h.2.1⟩

end DungeonMaster
